import Mathlib

/-!
Shallow embedding of the Z22SE GMPT-E15 ECU tuner calibration engine
(`TuneEngine` in `Z22SE_Tuner.py`) together with proofs about its
delta/patch algorithm, loader/detector, heuristic rev-limit scanner and
byte-comparison report.

Modelling conventions:
* A Python `bytearray` is modelled as a `ByteArr`: an explicit size plus a
  total function `Nat → Nat` giving the byte at each offset.  All offsets the
  engine touches on a loaded 524288-byte image are in range, so the total
  function never observes the out-of-range error a real `bytearray` raises.
* Change-log lines are modelled as structured `LogEntry` values carrying the
  semantic content of the formatted Python strings (the purely cosmetic text
  formatting - hex addresses, thousands separators - is abstracted away).
* `apply_iat_correction` multiplies bytes by a float scale and rounds; since
  IEEE floats are not shallow-embeddable, the per-byte transform
  `round(origByte * scale)` is abstracted as a parameter `f : Nat → Int`.
* GUI code, `save`, `backup` and the standalone analysis scripts are
  external collaborators and are not embedded.
-/

namespace Z22SE

/-- Pointwise update of a total byte function, modelling `buf[a] = v`. -/
def upd (f : Nat → Nat) (a v : Nat) : Nat → Nat :=
  fun j => if j = a then v else f j

/-- A Python `bytearray`: a length plus the byte at each offset. -/
structure ByteArr where
  size : Nat
  data : Nat → Nat

/-- Big-endian 16-bit read, `struct.unpack_from(">H", b, a)[0]`. -/
def readU16 (f : Nat → Nat) (a : Nat) : Nat :=
  f a * 256 + f (a + 1)

/-- `TuneEngine._clamp`: `max(1, min(254, v))` (result is a byte in [1,254]). -/
def clamp (v : Int) : Nat :=
  (max 1 (min 254 v)).toNat

/-- Structured change-log entries (`self.changes` strings in the source). -/
inductive LogEntry where
  | note (text : String)
  | deltaLine (label : String) (delta : Int) (cells : Nat)
  | write16 (label : String) (val : Nat)
  | revLimitHeader (origv rpm : Nat)
  | idleHeader (origv rpm : Nat)
  | knockLine (level : String) (v : Nat)
  | iatLine (patched : Nat)
  | clAuthLine (patched : Nat)
  | dtcLine (patched : Nat)
deriving DecidableEq

/-- One entry of `ECU_PROFILES`: the per-hardware-variant address profile. -/
structure Profile where
  name : String
  cal_pfx : String
  file_size : Nat
  ign_maps : List Nat
  fuel_maps : List Nat
  ign_trims : List (Nat × Nat)
  lambda_maps : List Nat
  rpm_engage : Option (List Nat)
  rpm_hyster : Option (List Nat)
  idle_rpm : List Nat
  iat_area : Nat × Nat
  knock_thr : Nat
  o2_auth : Nat × Nat
  dtc_area : Nat × Nat
  pin_addr : Nat
  cal_addr : Nat
  part_addr : Nat
  stock_rpm : Nat
  load_axis : List Nat
deriving DecidableEq

/-- Table geometry constants (ignition maps: 7-byte header + 12 rows x 13 cols). -/
def IGN_WOT_START : Nat := 0
def IGN_WOT_END : Nat := 72
def IGN_PL_START : Nat := 72
def IGN_PL_END : Nat := 124
def IGN_OVER_START : Nat := 124
def IGN_OVER_END : Nat := 163
def FUEL_WOT_START : Nat := 0
def FUEL_WOT_END : Nat := 46
def FUEL_PL_START : Nat := 46
def FUEL_PL_END : Nat := 75
def FUEL_OVER_START : Nat := 75
def FUEL_OVER_END : Nat := 115

/-- Profile record for part number 12591333 (2004 Astra G Z22SE). -/
def profile12591333 : Profile :=
  { name := "Opel Astra G Z22SE 2004 (Hw 12591333, our file)"
  , cal_pfx := "W0L0TGF675"
  , file_size := 524288
  , ign_maps := [0x0082C9, 0x0083A9, 0x008489, 0x008569]
  , fuel_maps := [0x0086C9, 0x00876C, 0x00880F, 0x0088B2]
  , ign_trims := [(0x00896B, 62), (0x0089CE, 22)]
  , lambda_maps := [0x00C7A7, 0x00C885]
  , rpm_engage := some [0x00B568, 0x00B56A]
  , rpm_hyster := some [0x00B570, 0x00B572, 0x00B574, 0x00B576]
  , idle_rpm := [0x008162, 0x008164, 0x008166,
                 0x008184, 0x008186, 0x008188,
                 0x0081A6, 0x0081A8, 0x0081AA,
                 0x0081C8, 0x0081CA, 0x0081CC]
  , iat_area := (0x00A610, 0x00A650)
  , knock_thr := 0x008D81
  , o2_auth := (0x00A680, 0x00A690)
  , dtc_area := (0x008C80, 0x008CB0)
  , pin_addr := 0x008141
  , cal_addr := 0x00602C
  , part_addr := 0x00800C
  , stock_rpm := 6500
  , load_axis := [117, 106, 103, 97, 94, 91, 88, 85, 77, 63, 51, 46] }

/-- Profile record for part number 12215796 (2001 Astra G Z22SE). -/
def profile12215796 : Profile :=
  { name := "Opel Astra G Z22SE 2001 (Hw 09391283 BC)"
  , cal_pfx := "W0L0TGF081"
  , file_size := 524288
  , ign_maps := [0x0082C9, 0x0083A9, 0x008489, 0x008569]
  , fuel_maps := [0x0086C9, 0x00876C, 0x00880F, 0x0088B2]
  , ign_trims := [(0x00896B, 62), (0x0089CE, 22)]
  , lambda_maps := [0x00C5BD, 0x00C640]
  , rpm_engage := none
  , rpm_hyster := none
  , idle_rpm := [0x008162, 0x008164, 0x008166]
  , iat_area := (0x00A610, 0x00A650)
  , knock_thr := 0x008D81
  , o2_auth := (0x00A680, 0x00A690)
  , dtc_area := (0x008C80, 0x008CB0)
  , pin_addr := 0x008141
  , cal_addr := 0x00402C
  , part_addr := 0x00800C
  , stock_rpm := 6500
  , load_axis := [117, 106, 103, 97, 94, 91, 88, 85, 77, 63, 51, 46] }

/-- Profile record for part number 12578132 (2004 Astra G Z22SE, alt cal). -/
def profile12578132 : Profile :=
  { name := "Opel Astra G Z22SE 2004 (Hw 12210453 EB)"
  , cal_pfx := "W0L0TGF084"
  , file_size := 524288
  , ign_maps := [0x0082C9, 0x0083A9, 0x008489, 0x008569]
  , fuel_maps := [0x0086C9, 0x00876C, 0x00880F, 0x0088B2]
  , ign_trims := [(0x00896B, 62), (0x0089CE, 22)]
  , lambda_maps := [0x00C7A7, 0x00C885]
  , rpm_engage := some [0x00B568, 0x00B56A]
  , rpm_hyster := some [0x00B570, 0x00B572, 0x00B574, 0x00B576]
  , idle_rpm := [0x008162, 0x008164, 0x008166,
                 0x008184, 0x008186, 0x008188,
                 0x0081A6, 0x0081A8, 0x0081AA,
                 0x0081C8, 0x0081CA, 0x0081CC]
  , iat_area := (0x00A610, 0x00A650)
  , knock_thr := 0x008D81
  , o2_auth := (0x00A680, 0x00A690)
  , dtc_area := (0x008C80, 0x008CB0)
  , pin_addr := 0x008141
  , cal_addr := 0x00602C
  , part_addr := 0x00800C
  , stock_rpm := 6500
  , load_axis := [117, 106, 103, 97, 94, 91, 88, 85, 77, 63, 51, 46] }

/-- Profile record for part number 12210633 (Opel Speedster 2.2 Z22SE). -/
def profile12210633 : Profile :=
  { name := "Opel Speedster 2.2 Z22SE 147hp (Hw 12202073 BZ)"
  , cal_pfx := ""
  , file_size := 524288
  , ign_maps := [0x0082C9, 0x0083A9, 0x008489, 0x008569]
  , fuel_maps := [0x0086C9, 0x00876C, 0x00880F, 0x0088B2]
  , ign_trims := [(0x00896B, 62), (0x0089CE, 22)]
  , lambda_maps := [0x00C5BD, 0x00C640]
  , rpm_engage := none
  , rpm_hyster := none
  , idle_rpm := [0x008162, 0x008164, 0x008166]
  , iat_area := (0x00A610, 0x00A650)
  , knock_thr := 0x008D81
  , o2_auth := (0x00A680, 0x00A690)
  , dtc_area := (0x008C80, 0x008CB0)
  , pin_addr := 0x008141
  , cal_addr := 0x00402C
  , part_addr := 0x00800C
  , stock_rpm := 6500
  , load_axis := [59, 60, 62, 62, 60, 53, 46, 40, 35, 32, 29, 27] }

/-- Generic GMPT-E15 fallback profile. -/
def profileGeneric : Profile :=
  { name := "Generic GMPT-E15 (unrecognised)"
  , cal_pfx := ""
  , file_size := 524288
  , ign_maps := [0x0082C9, 0x0083A9, 0x008489, 0x008569]
  , fuel_maps := [0x0086C9, 0x00876C, 0x00880F, 0x0088B2]
  , ign_trims := [(0x00896B, 62), (0x0089CE, 22)]
  , lambda_maps := [0x00C7A7, 0x00C885]
  , rpm_engage := none
  , rpm_hyster := none
  , idle_rpm := [0x008162, 0x008164, 0x008166]
  , iat_area := (0x00A610, 0x00A650)
  , knock_thr := 0x008D81
  , o2_auth := (0x00A680, 0x00A690)
  , dtc_area := (0x008C80, 0x008CB0)
  , pin_addr := 0x008141
  , cal_addr := 0x00602C
  , part_addr := 0x00800C
  , stock_rpm := 6500
  , load_axis := [117, 106, 103, 97, 94, 91, 88, 85, 77, 63, 51, 46] }

/-- `ECU_PROFILES` as an association list in source order
(the generic fallback is keyed `"__generic__"` exactly as in the source). -/
def ECU_PROFILES : List (String × Profile) :=
  [ ("12591333", profile12591333)
  , ("12215796", profile12215796)
  , ("12578132", profile12578132)
  , ("12210633", profile12210633)
  , ("__generic__", profileGeneric) ]

/-- `ECU_PROFILES.get(key, ECU_PROFILES["__generic__"])`. -/
def profilesGet (key : String) : Profile :=
  match ECU_PROFILES.find? (fun kv => kv.1 == key) with
  | some kv => kv.2
  | none => profileGeneric

/-- The state of a `TuneEngine` instance. -/
structure Engine where
  buf : ByteArr
  orig : ByteArr
  filepath : String
  profile : Profile
  changes : List LogEntry
  scannedRevAddr : Option Nat
  scannedRevRpm : Option Nat

/-- One step of a byte-range patch loop: compute the new value for offset `i`
from the offset and the current byte there, write it and bump the counter
only when it differs from the current byte. -/
def patchStep (nv : Nat → Nat → Nat) (st : (Nat → Nat) × Nat) (i : Nat) :
    (Nat → Nat) × Nat :=
  let v := nv i (st.1 i)
  if v ≠ st.1 i then (upd st.1 i v, st.2 + 1) else st

/-- Patch every offset in `[s, en)` of `buf` with `nv`, returning the new
buffer and the count of bytes actually altered.  This is the common shape of
the loops in `_delta_range`, `apply_iat_correction`, `disable_lambda` and
`disable_dtc`. -/
def patchRange (buf : Nat → Nat) (s en : Nat) (nv : Nat → Nat → Nat) :
    (Nat → Nat) × Nat :=
  (List.range' s (en - s)).foldl (patchStep nv) (buf, 0)

/-- `TuneEngine._delta_range` on the raw buffer: apply
`newValue = clamp(oldValue + delta)` to `buf[addr+start .. addr+end-1]`
(the Python loop runs `i` over `range(start, end)` and indexes `addr + i`;
here the range is shifted to absolute offsets `[addr+start, addr+end)`). -/
def delta_range (buf : Nat → Nat) (addr s en : Nat) (delta : Int) :
    (Nat → Nat) × Nat :=
  patchRange buf (addr + s) (addr + en) (fun _ b => clamp ((b : Int) + delta))

/-- `TuneEngine._delta_range` at the engine level: patch the working buffer
and append one log line when a label is supplied and cells changed. -/
def delta_range_e (e : Engine) (addr s en : Nat) (delta : Int)
    (label : String) : Engine :=
  let r := delta_range e.buf.data addr s en delta
  { e with buf := ⟨e.buf.size, r.1⟩
         , changes := if label ≠ "" ∧ r.2 ≠ 0
             then e.changes ++ [LogEntry.deltaLine label delta r.2]
             else e.changes }

/-- `TuneEngine._write_u16be`: unconditional big-endian 16-bit write with an
unconditional log entry when a label is supplied (`struct.pack_into ">H"`;
the value is expected to fit 16 bits). -/
def write_u16be (e : Engine) (addr val : Nat) (label : String) : Engine :=
  { e with buf := ⟨e.buf.size, upd (upd e.buf.data addr (val / 256 % 256)) (addr + 1) (val % 256)⟩
         , changes := if label ≠ ""
             then e.changes ++ [LogEntry.write16 label val]
             else e.changes }

/-- Append a plain change-log line (`self.changes.append(...)`). -/
def note (e : Engine) (text : String) : Engine :=
  { e with changes := e.changes ++ [LogEntry.note text] }

/-- `TuneEngine._ign`: WOT / part-load / (optional) overrun deltas across
every ignition map of the profile. -/
def ignZones (wot pl overrun : Int) (e : Engine) : Engine :=
  e.profile.ign_maps.foldl (fun acc addr =>
    let a1 := delta_range_e acc addr IGN_WOT_START IGN_WOT_END wot "Ign WOT"
    let a2 := delta_range_e a1 addr IGN_PL_START IGN_PL_END pl "Ign Part-load"
    if overrun ≠ 0
      then delta_range_e a2 addr IGN_OVER_START IGN_OVER_END overrun "Ign Overrun"
      else a2) e

/-- `TuneEngine._fuel`: WOT / part-load / (optional) overrun deltas across
every fuel map of the profile. -/
def fuelZones (wot pl overrun : Int) (e : Engine) : Engine :=
  e.profile.fuel_maps.foldl (fun acc addr =>
    let a1 := delta_range_e acc addr FUEL_WOT_START FUEL_WOT_END wot "Fuel WOT"
    let a2 := delta_range_e a1 addr FUEL_PL_START FUEL_PL_END pl "Fuel Part-load"
    if overrun ≠ 0
      then delta_range_e a2 addr FUEL_OVER_START FUEL_OVER_END overrun "Fuel Overrun enrich"
      else a2) e

/-- `TuneEngine._lambda`: WOT (and optional part-load) deltas across every
lambda map of the profile (lambda maps share the ignition-map layout). -/
def lambdaZones (wot pl : Int) (e : Engine) : Engine :=
  e.profile.lambda_maps.foldl (fun acc addr =>
    let a1 := delta_range_e acc addr IGN_WOT_START IGN_WOT_END wot "Lambda WOT"
    if pl ≠ 0
      then delta_range_e a1 addr IGN_PL_START IGN_PL_END pl "Lambda PL"
      else a1) e

/-- `TuneEngine._trims`: delta over each ignition trim region. -/
def trims (d : Int) (e : Engine) : Engine :=
  e.profile.ign_trims.foldl (fun acc t =>
    delta_range_e acc t.1 0 t.2 d "Ign trim") e

/-- The resolved fuel-cut engage addresses of `apply_rev_limit`: the profile
list, or the scanned-address pair when the profile has none. -/
def revEngageAddrs (e : Engine) : List Nat :=
  let pe := e.profile.rpm_engage.getD []
  if pe.isEmpty then
    match e.scannedRevAddr with
    | some sa => [sa, sa + 2]
    | none => pe
  else pe

/-- The resolved fuel-cut hysteresis addresses of `apply_rev_limit`. -/
def revHysterAddrs (e : Engine) : List Nat :=
  let pe := e.profile.rpm_engage.getD []
  if pe.isEmpty then
    match e.scannedRevAddr with
    | some sa => [sa + 8, sa + 10, sa + 12, sa + 14]
    | none => e.profile.rpm_hyster.getD []
  else e.profile.rpm_hyster.getD []

/-- The original rev-limit value `apply_rev_limit` compares against: the
stored big-endian value at the first engage address, replaced by the scanned
rpm (or the stock default, also when the scanned rpm is falsy) if the stored
value is outside [1000, 9000]. -/
def revResolvedOrig (e : Engine) : Nat :=
  let o := readU16 e.orig.data ((revEngageAddrs e).headD 0)
  if 1000 ≤ o ∧ o ≤ 9000 then o
  else
    match e.scannedRevRpm with
    | some v => if v = 0 then e.profile.stock_rpm else v
    | none => e.profile.stock_rpm

/-- `TuneEngine.apply_rev_limit`. -/
def apply_rev_limit (rpm : Nat) (e : Engine) : Engine :=
  let engage_addrs := revEngageAddrs e
  let hyster_addrs := revHysterAddrs e
  if engage_addrs.isEmpty then
    note e "Rev Limit SKIPPED - address unknown for this ECU variant"
  else if rpm = revResolvedOrig e then e
  else
    let e1 := { e with changes := e.changes ++ [LogEntry.revLimitHeader (revResolvedOrig e) rpm] }
    let hyst := rpm - 6
    let e2 := engage_addrs.foldl (fun acc a => write_u16be acc a rpm "Fuel cut engage") e1
    if hyster_addrs.isEmpty then e2
    else hyster_addrs.foldl (fun acc a => write_u16be acc a hyst "Fuel cut hyster") e2

/-- `TuneEngine.apply_idle_rpm`. -/
def apply_idle_rpm (rpm : Nat) (e : Engine) : Engine :=
  let origv := readU16 e.orig.data (e.profile.idle_rpm.headD 0)
  if rpm = origv then e
  else
    let e1 := { e with changes := e.changes ++ [LogEntry.idleHeader origv rpm] }
    e1.profile.idle_rpm.foldl (fun acc a => write_u16be acc a rpm "Idle target") e1

/-- The knock-protection value table
(`{"stock": orig, "safe": 100, "aggressive": 40, "disabled": 0xFF}` with
`dict.get` falling back to the original byte). -/
def knockValue (level : String) (origv : Nat) : Nat :=
  match level with
  | "stock" => origv
  | "safe" => 100
  | "aggressive" => 40
  | "disabled" => 0xFF
  | _ => origv

/-- `TuneEngine.apply_knock_protection`: one-byte write at the knock
threshold address; unknown levels fall back to the original byte. -/
def apply_knock_protection (level : String) (e : Engine) : Engine :=
  if knockValue level (e.orig.data e.profile.knock_thr) ≠ e.buf.data e.profile.knock_thr then
    { e with buf := ⟨e.buf.size, upd e.buf.data e.profile.knock_thr
                       (knockValue level (e.orig.data e.profile.knock_thr))⟩
           , changes := e.changes ++ [LogEntry.knockLine level
               (knockValue level (e.orig.data e.profile.knock_thr))] }
  else e

/-- `TuneEngine.apply_iat_correction`: patch every byte of the IAT area with
`clamp(round(origByte * scale))`; the float multiply-and-round is abstracted
as `f`. -/
def apply_iat_correction (f : Nat → Int) (e : Engine) : Engine :=
  let r := patchRange e.buf.data e.profile.iat_area.1 e.profile.iat_area.2
    (fun i _ => clamp (f (e.orig.data i)))
  let e1 := { e with buf := ⟨e.buf.size, r.1⟩ }
  if r.2 ≠ 0 then { e1 with changes := e1.changes ++ [LogEntry.iatLine r.2] } else e1

/-- `TuneEngine.apply_stage1`. -/
def apply_stage1 (e : Engine) : Engine :=
  let e0 := note e "Stage 1 [verified against real Stage1 binary]"
  let e1 := note e0 "Ign: +2 WOT / +1 PL"
  let e2 := note e1 "Fuel: +2 WOT / +1 PL"
  let e3 := note e2 "Lambda: -7 WOT | RPM limit: unchanged"
  lambdaZones (-7) 0 (trims 1 (fuelZones 2 1 0 (ignZones 2 1 0 e3)))

/-- `TuneEngine.apply_stage1plus`. -/
def apply_stage1plus (e : Engine) : Engine :=
  let e0 := note e "Stage 1+ [moderate, uniform]"
  let e1 := note e0 "Ign: +3 WOT / +2 PL | Fuel: +3 WOT / +2 PL"
  let e2 := note e1 "Lambda: -9 WOT / -3 PL"
  lambdaZones (-9) (-3) (trims 1 (fuelZones 3 2 0 (ignZones 3 2 0 e2)))

/-- `TuneEngine.apply_stage2`. -/
def apply_stage2 (e : Engine) : Engine :=
  let e0 := note e "Stage 2 [aggressive + 6800 RPM]"
  let e1 := note e0 "Ign: +5 WOT / +3 PL | Fuel: +4 WOT / +2 PL"
  let e2 := note e1 "Lambda: -11 WOT / -5 PL | Rev limit: 6800 RPM"
  apply_rev_limit 6800
    (lambdaZones (-11) (-5) (trims 2 (fuelZones 4 2 0 (ignZones 5 3 0 e2))))

/-- `TuneEngine.apply_pop_bang`. -/
def apply_pop_bang (e : Engine) : Engine :=
  let e0 := note e "Pop and Bang [overrun zone]"
  let e1 := note e0 "Ign overrun: -12 counts | Fuel overrun: +4 counts"
  fuelZones 0 0 4 (ignZones 0 0 (-12) e1)

/-- `TuneEngine.apply_burble`. -/
def apply_burble (e : Engine) : Engine :=
  let e0 := note e "Burble [aggressive overrun]"
  let e1 := note e0 "Ign overrun: -20 counts | Fuel overrun: +7 counts"
  fuelZones 0 0 7 (ignZones 0 0 (-20) e1)

/-- `TuneEngine.disable_lambda`: clamp every O2-authority byte above 0x80
down to 0x80, then push the lambda maps rich by -14 on WOT and PL. -/
def disable_lambda (e : Engine) : Engine :=
  let e0 := note e "Lambda/O2 Closed-Loop DISABLED"
  let r := patchRange e0.buf.data e0.profile.o2_auth.1 e0.profile.o2_auth.2
    (fun _ b => if 0x80 < b then 0x80 else b)
  let e1 := { e0 with buf := ⟨e0.buf.size, r.1⟩
                    , changes := e0.changes ++ [LogEntry.clAuthLine r.2] }
  lambdaZones (-14) (-14) e1

/-- `TuneEngine.disable_egr`: the platform has no EGR; log only. -/
def disable_egr (e : Engine) : Engine :=
  note e "EGR Disable - N/A (Z22SE has no EGR)"

/-- `TuneEngine.disable_dtc`: zero every DTC-area byte in [0x04, 0x1E]. -/
def disable_dtc (e : Engine) : Engine :=
  let e0 := note e "DTC Monitoring DISABLED (best-effort)"
  let r := patchRange e0.buf.data e0.profile.dtc_area.1 e0.profile.dtc_area.2
    (fun _ b => if 0x04 ≤ b ∧ b ≤ 0x1E then 0x00 else b)
  { e0 with buf := ⟨e0.buf.size, r.1⟩
          , changes := e0.changes ++ [LogEntry.dtcLine r.2] }

/-- `TuneEngine.reset`: restore the working buffer from the original and
clear the change log. -/
def reset (e : Engine) : Engine :=
  { e with buf := e.orig, changes := [] }

/-- `TuneEngine.changed_byte_count`: offsets where working and original
buffers differ (`zip` stops at the shorter buffer). -/
def changed_byte_count (e : Engine) : Nat :=
  ((List.range (min e.buf.size e.orig.size)).filter
    (fun j => e.buf.data j != e.orig.data j)).length

/-- The catalogue of tune operations exposed by the engine.  The IAT
operation carries the abstracted per-byte transform (see module comment). -/
inductive Op where
  | stage1
  | stage1plus
  | stage2
  | popBang
  | burble
  | revLimit (rpm : Nat)
  | idleRpm (rpm : Nat)
  | knock (level : String)
  | iatCorrection (f : Nat → Int)
  | lambdaDisable
  | egrDisable
  | dtcDisable

/-- Dispatch a tune operation. -/
def applyOp : Op → Engine → Engine
  | Op.stage1 => apply_stage1
  | Op.stage1plus => apply_stage1plus
  | Op.stage2 => apply_stage2
  | Op.popBang => apply_pop_bang
  | Op.burble => apply_burble
  | Op.revLimit rpm => apply_rev_limit rpm
  | Op.idleRpm rpm => apply_idle_rpm rpm
  | Op.knock level => apply_knock_protection level
  | Op.iatCorrection f => apply_iat_correction f
  | Op.lambdaDisable => disable_lambda
  | Op.egrDisable => disable_egr
  | Op.dtcDisable => disable_dtc

/-- Apply a sequence of tune operations in order. -/
def applyOps (ops : List Op) (e : Engine) : Engine :=
  ops.foldl (fun acc op => applyOp op acc) e

/-- Association-list lookup by address used for `addr + 2 in hits`. -/
def hitsLookup (hits : List (Nat × Nat)) (k : Nat) : Option Nat :=
  match hits with
  | [] => none
  | h :: t => if k = h.1 then some h.2 else hitsLookup t k

/-- `Counter(...).most_common(1)[0][0]`: the value with the highest
multiplicity; ties are broken in favour of the first-inserted value, as
Python `Counter` does. -/
def mostCommon (vals : List Nat) : Option Nat :=
  vals.foldl (fun best v =>
    match best with
    | none => some v
    | some b => if vals.count b < vals.count v then some v else some b) none

/-- `TuneEngine._scan_rev_limit`: scan every even offset for a big-endian
16-bit value in [5500, 7500]; prefer an engage/cut pair (same value repeated
two bytes later), letting pairs in the calibration-looking range
[0x8000, 0xC000] override; otherwise fall back to the most common in-range
value of the first half of the image.  Returns `(none, none)` on failure. -/
def scan_rev_limit (b : ByteArr) : Option Nat × Option Nat :=
  let offs := List.range' 0 ((b.size - 1 + 1) / 2) 2
  let hits : List (Nat × Nat) := offs.filterMap (fun i =>
    let val := readU16 b.data i
    if 5500 ≤ val ∧ val ≤ 7500 then some (i, val) else none)
  if hits.isEmpty then (none, none)
  else
    let best := hits.foldl (fun best h =>
      match hitsLookup hits (h.1 + 2) with
      | some v2 =>
        if v2 = h.2 then
          if best.1 = none ∨ (0x8000 ≤ h.1 ∧ h.1 ≤ 0xC000)
            then (some h.1, some h.2) else best
        else best
      | none => best) ((none : Option Nat), (none : Option Nat))
    match best with
    | (some a, r) => (some a, r)
    | (none, _) =>
      let vals := (hits.filter (fun h => h.1 < 0x40000)).map (fun h => h.2)
      match mostCommon vals with
      | none => (none, none)
      | some r =>
        match hits.find? (fun h => h.2 == r) with
        | some h0 => (some h0.1, some r)
        | none => (none, some r)

/-- `bytes.decode("ascii", "replace")`: bytes at and above 128 become the
replacement character U+FFFD. -/
def decodeAsciiReplace (bs : List Nat) : List Char :=
  bs.map (fun v => if v < 128 then Char.ofNat v else Char.ofNat 0xFFFD)

/-- Python `str.strip(chars)`: drop the given characters from both ends. -/
def pyStrip (cs : List Char) (chars : List Char) : List Char :=
  ((cs.dropWhile (fun c => chars.contains c)).reverse.dropWhile
    (fun c => chars.contains c)).reverse

/-- Read `k` bytes of a buffer starting at offset `a` (a Python slice; the
slices taken by `_detect` are always inside a loaded 524288-byte image). -/
def readBytes (b : ByteArr) (a k : Nat) : List Nat :=
  (List.range' a k).map b.data

/-- The decoded, stripped 8-byte part-number field at 0x00800C. -/
def rawPart (b : ByteArr) : String :=
  String.mk (pyStrip (decodeAsciiReplace (readBytes b 0x00800C 8))
    [Char.ofNat 0, ' ', Char.ofNat 0xFF])

/-- The decoded calibration/VIN field: 17 bytes at the profile address,
stripped of padding, keeping only printable ASCII. -/
def rawCal (b : ByteArr) (cal_addr : Nat) : String :=
  String.mk ((pyStrip (decodeAsciiReplace (readBytes b cal_addr 17))
    [Char.ofNat 0, ' ', Char.ofNat 0xFF, Char.ofNat 0xFE]).filter
      (fun c => 32 ≤ c.toNat ∧ c.toNat < 127))

/-- PIN decoding in `_detect`: each byte's high and low nibble rendered in
decimal and concatenated. -/
def decodePin (b0 b1 : Nat) : String :=
  Nat.repr (b0 / 16) ++ Nat.repr (b0 % 16) ++ Nat.repr (b1 / 16) ++ Nat.repr (b1 % 16)

/-- Provenance of the resolved rev limit in the detection snapshot. -/
inductive RevSource where
  | dash
  | profileAddr (a : Nat)
  | scannedAt (a : Option Nat)
  | fromDefault
deriving DecidableEq

/-- The detection snapshot `_detect` returns. -/
structure DetectedInfo where
  part : String
  cal_id : String
  pin : String
  rev_rpm : Nat
  rev_source : RevSource
  idle_rpm : Nat
  size_kb : Nat
  known : Bool
  profile_name : String
  load_axis : List Nat
  is_speedster : Bool

/-- Python truthiness of the optional scanned rpm (`if scan_rpm:`). -/
def optNatTruthy (o : Option Nat) : Bool :=
  match o with
  | none => false
  | some v => v ≠ 0

/-- `TuneEngine._detect`: resolve the profile from the part number, decode
identity fields, resolve rev limit (with heuristic scan fallback) and idle
rpm.  Returns the updated engine (profile and scanned-rev fields) plus the
snapshot. -/
def detect (e : Engine) : Engine × DetectedInfo :=
  let part := rawPart e.orig
  let p := profilesGet part
  let cal := rawCal e.orig p.cal_addr
  let pin := decodePin (e.orig.data p.pin_addr) (e.orig.data (p.pin_addr + 1))
  let pe := p.rpm_engage.getD []
  let rev0 : Nat × RevSource :=
    match pe with
    | [] => (0, RevSource.dash)
    | a :: _ => (readU16 e.orig.data a, RevSource.profileAddr a)
  let resolved : Option Nat × Option Nat × Nat × RevSource :=
    if pe.isEmpty ∨ ¬(1000 ≤ rev0.1 ∧ rev0.1 ≤ 9000) then
      let scanned := scan_rev_limit e.orig
      if optNatTruthy scanned.2 then
        (scanned.1, scanned.2, scanned.2.getD 0, RevSource.scannedAt scanned.1)
      else
        (e.scannedRevAddr, e.scannedRevRpm, p.stock_rpm, RevSource.fromDefault)
    else (e.scannedRevAddr, e.scannedRevRpm, rev0.1, rev0.2)
  let idle0 := readU16 e.orig.data (p.idle_rpm.headD 0)
  let idle := if 400 ≤ idle0 ∧ idle0 ≤ 2000 then idle0 else 800
  ({ e with profile := p
          , scannedRevAddr := resolved.1
          , scannedRevRpm := resolved.2.1 },
   { part := part
   , cal_id := cal
   , pin := pin
   , rev_rpm := resolved.2.2.1
   , rev_source := resolved.2.2.2
   , idle_rpm := idle
   , size_kb := e.orig.size / 1024
   , known := (ECU_PROFILES.find? (fun kv => kv.1 == part)).isSome
   , profile_name := p.name
   , load_axis := p.load_axis
   , is_speedster := part = "12210633" })

/-- The failure `TuneEngine.load` raises. -/
inductive LoadErr where
  | sizeMismatch (got : Nat)
deriving DecidableEq

/-- `TuneEngine.load`: reject any image that is not exactly 524288 bytes,
leaving the engine untouched; otherwise copy the bytes into both buffers,
reset the change log and scanned-rev state, and run detection. -/
def load (e : Engine) (path : String) (data : ByteArr) : Engine × Except LoadErr DetectedInfo :=
  if data.size ≠ 524288 then (e, Except.error (LoadErr.sizeMismatch data.size))
  else
    let e1 := { e with buf := data
                     , orig := data
                     , filepath := path
                     , changes := []
                     , scannedRevAddr := none
                     , scannedRevRpm := none }
    let d := detect e1
    (d.1, Except.ok d.2)

/-- One step of the changed-run extraction loop in `compare_files`: state is
(closed regions, open-run start, last differing offset).  A differing byte
opens or extends the current run; an equal byte closes an open run. -/
def diffStep (a b : Nat → Nat) :
    List (Nat × Nat) × Option Nat × Nat → Nat → List (Nat × Nat) × Option Nat × Nat
  | (regs, none, prev), i =>
    if a i ≠ b i then (regs, some i, i) else (regs, none, prev)
  | (regs, some s, prev), i =>
    if a i ≠ b i then (regs, some s, i) else (regs ++ [(s, prev)], none, prev)

/-- The maximal runs of differing offsets between two equal-length buffers
(the first loop of `compare_files`, including the trailing flush). -/
def rawRegions (a b : Nat → Nat) (n : Nat) : List (Nat × Nat) :=
  match (List.range n).foldl (diffStep a b) ([], none, 0) with
  | (regs, some s, prev) => regs ++ [(s, prev)]
  | (regs, none, _) => regs

/-- The region-merge loop of `compare_files`: a run starting at most 8 bytes
after the end of the previous merged region is absorbed into it.  `cur` is
the region under construction (Python `merged[-1]`). -/
def mergeAux (acc : List (Nat × Nat)) (cur : Nat × Nat) :
    List (Nat × Nat) → List (Nat × Nat)
  | [] => acc ++ [cur]
  | r :: rest =>
    if r.1 - cur.2 ≤ 8 then mergeAux acc (cur.1, r.2) rest
    else mergeAux (acc ++ [cur]) r rest

/-- Merge near-adjacent regions (gap of at most 8 bytes). -/
def mergeRegions : List (Nat × Nat) → List (Nat × Nat)
  | [] => []
  | r :: rs => mergeAux [] r rs

/-- The known calibration-table address ranges used to annotate regions. -/
def KNOWN : List ((Nat × Nat) × String) :=
  [ ((0x0082C9, 0x00836B), "Ignition Map #1")
  , ((0x0083A9, 0x00844B), "Ignition Map #2")
  , ((0x008489, 0x00852B), "Ignition Map #3")
  , ((0x008569, 0x00860B), "Ignition Map #4")
  , ((0x0086C9, 0x008742), "Fuel Map #1")
  , ((0x00876C, 0x0087DE), "Fuel Map #2")
  , ((0x00880F, 0x008881), "Fuel Map #3")
  , ((0x0088B2, 0x008924), "Fuel Map #4")
  , ((0x00896B, 0x0089AA), "Ign Trim #1")
  , ((0x0089CE, 0x0089E3), "Ign Trim #2")
  , ((0x00C7A7, 0x00C849), "Lambda Map #1 (2004)")
  , ((0x00C885, 0x00C927), "Lambda Map #2 (2004)")
  , ((0x00C5BD, 0x00C777), "Lambda Map (2001 offset)")
  , ((0x00B568, 0x00B579), "Rev Limiter")
  , ((0x008162, 0x00816A), "Idle RPM") ]

/-- The per-region detail of a comparison-report line: literal byte deltas
for small regions (first 6, with an ellipsis marker), or the first 8 sorted
unique delta values for large ones. -/
inductive RegionSample where
  | small (cells : List (Nat × Nat × Int)) (ellipsis : Bool)
  | large (uniqueDeltas : List Int)

/-- One annotated line of the comparison report. -/
structure RegionLine where
  regStart : Nat
  regEnd : Nat
  regSize : Nat
  tag : Option String
  sample : RegionSample

/-- Build the annotated line for one merged region. -/
def regionLine (a b : ByteArr) (r : Nat × Nat) : RegionLine :=
  let size := r.2 - r.1 + 1
  let tag := (KNOWN.find? (fun kr =>
    decide ((kr.1.1 ≤ r.1 ∧ r.1 ≤ kr.1.2) ∨ (kr.1.1 ≤ r.2 ∧ r.2 ≤ kr.1.2)))).map
      (fun kr => kr.2)
  let sample :=
    if size ≤ 20 then
      let cells := (List.range' r.1 size).filterMap (fun i =>
        if a.data i ≠ b.data i
          then some (a.data i, b.data i, (b.data i : Int) - (a.data i : Int))
          else none)
      RegionSample.small (cells.take 6) (decide (6 < cells.length))
    else
      let deltas := (List.range' r.1 size).filterMap (fun i =>
        if a.data i ≠ b.data i
          then some ((b.data i : Int) - (a.data i : Int)) else none)
      RegionSample.large ((deltas.dedup.mergeSort (fun x y => x ≤ y)).take 8)
  { regStart := r.1, regEnd := r.2, regSize := size, tag := tag, sample := sample }

/-- The result of `compare_files`: an explanatory size-mismatch message or
the report content (total changed bytes, merged regions, annotated lines). -/
inductive CompareResult where
  | sizeMismatch (la lb : Nat)
  | report (total : Nat) (merged : List (Nat × Nat)) (lines : List RegionLine)

/-- `TuneEngine.compare_files` on two byte buffers. -/
def compare_files (a b : ByteArr) : CompareResult :=
  if a.size ≠ b.size then CompareResult.sizeMismatch a.size b.size
  else
    let merged := mergeRegions (rawRegions a.data b.data a.size)
    let total := (merged.map (fun r => r.2 - r.1 + 1)).sum
    CompareResult.report total merged (merged.map (regionLine a b))

/-- The reported total changed-byte figure. -/
def compareTotal : CompareResult → Nat
  | CompareResult.sizeMismatch _ _ => 0
  | CompareResult.report t _ _ => t

/-- The reported merged-region count. -/
def compareRegionCount : CompareResult → Nat
  | CompareResult.sizeMismatch _ _ => 0
  | CompareResult.report _ m _ => m.length

/-- The number of offsets at which two buffers hold different bytes
(meaningful for equal-size buffers). -/
def diffCount (a b : ByteArr) : Nat :=
  ((List.range a.size).filter (fun i => a.data i != b.data i)).length

/-- Frame predicate: `e2` differs from `e` at most in the change log and in
working-buffer bytes at offsets outside `P`; every other engine field (the
original buffer, filepath, profile, scanned-rev state) and the working
buffer size are untouched. -/
def Untouched (P : Nat → Prop) (e e2 : Engine) : Prop :=
  e2.orig = e.orig ∧ e2.filepath = e.filepath ∧ e2.profile = e.profile ∧
  e2.scannedRevAddr = e.scannedRevAddr ∧ e2.scannedRevRpm = e.scannedRevRpm ∧
  e2.buf.size = e.buf.size ∧ ∀ j, P j → e2.buf.data j = e.buf.data j

/-- Every address range a profile can direct a tune operation to write lies
below `n`. -/
def ProfileBounded (p : Profile) (n : Nat) : Prop :=
  (∀ a ∈ p.ign_maps, a + IGN_OVER_END ≤ n) ∧
  (∀ a ∈ p.fuel_maps, a + FUEL_OVER_END ≤ n) ∧
  (∀ t ∈ p.ign_trims, t.1 + t.2 ≤ n) ∧
  (∀ a ∈ p.lambda_maps, a + IGN_PL_END ≤ n) ∧
  (∀ a ∈ p.rpm_engage.getD [], a + 2 ≤ n) ∧
  (∀ a ∈ p.rpm_hyster.getD [], a + 2 ≤ n) ∧
  (∀ a ∈ p.idle_rpm, a + 2 ≤ n) ∧
  p.iat_area.2 ≤ n ∧ p.knock_thr + 1 ≤ n ∧ p.o2_auth.2 ≤ n ∧ p.dtc_area.2 ≤ n

/-- The profiles of the registry. -/
def registryProfiles : List Profile :=
  ECU_PROFILES.map (fun kv => kv.2)

/-! ### Concrete data for witnesses and counterexamples -/

/-- The all-zero byte function. -/
def zeroBuf : Nat → Nat := fun _ => 0

/-- A constant-100 byte function. -/
def buf100 : Nat → Nat := fun _ => 100

/-- A synthetic 524288-byte image whose part-number field reads
`"12591333"` (ASCII) and whose bytes at 0x00B568 hold 6500 big-endian. -/
def D1333 : ByteArr :=
  ⟨524288, fun j =>
    if j = 0x800C then 49 else if j = 0x800D then 50
    else if j = 0x800E then 53 else if j = 0x800F then 57
    else if j = 0x8010 then 49 else if j = 0x8011 then 51
    else if j = 0x8012 then 51 else if j = 0x8013 then 51
    else if j = 0xB568 then 25 else if j = 0xB569 then 100 else 0⟩

/-- A fresh engine before any image is loaded. -/
def E0 : Engine :=
  ⟨⟨0, zeroBuf⟩, ⟨0, zeroBuf⟩, "", profileGeneric, [], none, none⟩

/-- An engine holding `D1333` with its matching profile resolved. -/
def E1333 : Engine :=
  ⟨D1333, D1333, "astra.bin", profile12591333, [], none, none⟩

/-- A buffer storing the implausible value 500 at the 2004 engage address. -/
def rev500Buf : Nat → Nat :=
  fun j => if j = 0xB568 then 1 else if j = 0xB569 then 244 else 0

/-- An engine whose stored rev-limit value (500) is outside [1000, 9000]. -/
def E500 : Engine :=
  ⟨⟨524288, rev500Buf⟩, ⟨524288, rev500Buf⟩, "x.bin", profile12591333, [], none, none⟩

/-- A small all-100 engine used to exercise no-op delta ranges. -/
def E100 : Engine :=
  ⟨⟨16, buf100⟩, ⟨16, buf100⟩, "", profileGeneric, [], none, none⟩

/-- A 524288-byte image with a single engineered 6800/6800 engage-cut pair
at 0x9000 and no other in-range 16-bit value. -/
def scanPairBuf : ByteArr :=
  ⟨524288, fun j =>
    if j = 0x9000 then 26 else if j = 0x9001 then 144
    else if j = 0x9002 then 26 else if j = 0x9003 then 144 else 0⟩

/-- An all-zero 524288-byte image (no scanner hits at all). -/
def zeroImage : ByteArr := ⟨524288, zeroBuf⟩

/-- A 3-byte file, rejected by `load`. -/
def D3 : ByteArr := ⟨3, zeroBuf⟩

/-- 20-byte buffer differing from zero at offsets 2 and 10 (gap 8). -/
def gap8Buf : ByteArr := ⟨20, fun j => if j = 2 ∨ j = 10 then 1 else 0⟩

/-- 20-byte buffer differing from zero at offsets 2 and 11 (gap 9). -/
def gap9Buf : ByteArr := ⟨20, fun j => if j = 2 ∨ j = 11 then 1 else 0⟩

/-- The 20-byte all-zero buffer. -/
def zero20 : ByteArr := ⟨20, zeroBuf⟩

/-- 12-byte buffer differing from zero exactly on the run [3, 7). -/
def runBuf : ByteArr := ⟨12, fun j => if 3 ≤ j ∧ j < 7 then 5 else 0⟩

/-- The 12-byte all-zero buffer. -/
def zero12 : ByteArr := ⟨12, zeroBuf⟩

/-- 9-byte buffer differing from zero at offsets 0 and 8. -/
def edge9Buf : ByteArr := ⟨9, fun j => if j = 0 ∨ j = 8 then 1 else 0⟩

/-- The 9-byte all-zero buffer. -/
def zero9 : ByteArr := ⟨9, zeroBuf⟩

/-! ## Basic lemmas about `upd` and `clamp` -/

theorem upd_same (f : Nat → Nat) (a v : Nat) : upd f a v a = v := by
  simp [upd]

theorem upd_ne (f : Nat → Nat) (a v j : Nat) (h : j ≠ a) : upd f a v j = f j := by
  simp [upd, h]

theorem clamp_ge_one (v : Int) : 1 ≤ clamp v := by
  simp only [clamp, Int.max_def, Int.min_def]
  split_ifs <;> omega

theorem clamp_le_254 (v : Int) : clamp v ≤ 254 := by
  simp only [clamp, Int.max_def, Int.min_def]
  split_ifs <;> omega

theorem clamp_of_bounds (v : Int) (h1 : 1 ≤ v) (h2 : v ≤ 254) :
    (clamp v : Int) = v := by
  simp only [clamp, Int.max_def, Int.min_def]
  split_ifs <;> omega

theorem clamp_add_zero (b : Nat) (h1 : 1 ≤ b) (h2 : b ≤ 254) :
    clamp ((b : Int) + 0) = b := by
  simp only [clamp, Int.max_def, Int.min_def]
  split_ifs <;> omega

theorem clamp_at_top (d : Int) (h : 0 < d) : clamp ((254 : Int) + d) = 254 := by
  simp only [clamp, Int.max_def, Int.min_def]
  split_ifs <;> omega

theorem clamp_at_bot (d : Int) (h : d < 0) : clamp ((1 : Int) + d) = 1 := by
  simp only [clamp, Int.max_def, Int.min_def]
  split_ifs <;> omega

/-! ## Closed form of the patch loop -/

theorem patchFold (nv : Nat → Nat → Nat) :
    ∀ (n s : Nat) (buf : Nat → Nat) (c : Nat),
      (List.range' s n).foldl (patchStep nv) (buf, c) =
        ((fun j => if s ≤ j ∧ j < s + n then nv j (buf j) else buf j),
         c + ((List.range' s n).filter (fun i => nv i (buf i) != buf i)).length) := by
  intro n
  induction n with
  | zero =>
    intro s buf c
    refine Prod.ext ?_ ?_
    · funext j
      simp only [List.range', List.foldl_nil]
      rw [if_neg (by omega)]
    · simp [List.range']
  | succ n ih =>
    intro s buf c
    rw [List.range'_succ, List.foldl_cons]
    by_cases hs : nv s (buf s) = buf s
    · have hstep : patchStep nv (buf, c) s = (buf, c) := by
        simp [patchStep, hs]
      rw [hstep, ih (s + 1) buf c]
      have hpred : (nv s (buf s) != buf s) = false := by
        simp [hs]
      refine Prod.ext ?_ ?_
      · dsimp only
        funext j
        by_cases h1 : s + 1 ≤ j ∧ j < s + 1 + n
        · rw [if_pos h1, if_pos (by omega)]
        · rw [if_neg h1]
          by_cases h2 : s ≤ j ∧ j < s + (n + 1)
          · have hj : j = s := by omega
            rw [if_pos h2, hj, hs]
          · rw [if_neg h2]
      · dsimp only
        rw [List.filter_cons, hpred]
        simp
    · have hstep : patchStep nv (buf, c) s = (upd buf s (nv s (buf s)), c + 1) := by
        simp [patchStep, hs]
      rw [hstep, ih (s + 1) (upd buf s (nv s (buf s))) (c + 1)]
      have hpred : (nv s (buf s) != buf s) = true := by
        simp [hs]
      refine Prod.ext ?_ ?_
      · dsimp only
        funext j
        by_cases h1 : s + 1 ≤ j ∧ j < s + 1 + n
        · rw [if_pos h1, if_pos (by omega), upd_ne _ _ _ _ (by omega)]
        · rw [if_neg h1]
          by_cases h2 : s ≤ j ∧ j < s + (n + 1)
          · have hj : j = s := by omega
            rw [if_pos h2, hj, upd_same]
          · rw [if_neg h2, upd_ne _ _ _ _ (by omega)]
      · dsimp only
        rw [List.filter_cons, hpred]
        have hcongr : (List.range' (s + 1) n).filter
              (fun i => nv i (upd buf s (nv s (buf s)) i) != upd buf s (nv s (buf s)) i)
            = (List.range' (s + 1) n).filter (fun i => nv i (buf i) != buf i) := by
          apply List.filter_congr
          intro i hi
          have hmem : s + 1 ≤ i ∧ i < s + 1 + n := List.mem_range'_1.mp hi
          rw [upd_ne _ _ _ _ (by omega)]
        rw [hcongr]
        simp only [List.length_cons, if_pos]
        omega

theorem patchRange_data (buf : Nat → Nat) (s en : Nat) (nv : Nat → Nat → Nat) :
    (patchRange buf s en nv).1 =
      fun j => if s ≤ j ∧ j < en then nv j (buf j) else buf j := by
  rw [patchRange, patchFold]
  dsimp only
  funext j
  by_cases h : s ≤ j ∧ j < s + (en - s)
  · rw [if_pos h, if_pos (by omega)]
  · rw [if_neg h, if_neg (by omega)]

theorem patchRange_count (buf : Nat → Nat) (s en : Nat) (nv : Nat → Nat → Nat) :
    (patchRange buf s en nv).2 =
      ((List.range' s (en - s)).filter (fun i => nv i (buf i) != buf i)).length := by
  rw [patchRange, patchFold]
  dsimp only
  omega

theorem patchRange_outside (buf : Nat → Nat) (s en : Nat) (nv : Nat → Nat → Nat)
    (j : Nat) (h : j < s ∨ en ≤ j) : (patchRange buf s en nv).1 j = buf j := by
  rw [patchRange_data]
  exact if_neg (by omega)

theorem patchRange_inside (buf : Nat → Nat) (s en : Nat) (nv : Nat → Nat → Nat)
    (j : Nat) (h1 : s ≤ j) (h2 : j < en) :
    (patchRange buf s en nv).1 j = nv j (buf j) := by
  rw [patchRange_data]
  exact if_pos ⟨h1, h2⟩

theorem patchRange_id (buf : Nat → Nat) (s en : Nat) (nv : Nat → Nat → Nat)
    (h : ∀ j, s ≤ j → j < en → nv j (buf j) = buf j) :
    patchRange buf s en nv = (buf, 0) := by
  refine Prod.ext ?_ ?_
  · rw [patchRange_data]
    funext j
    by_cases hj : s ≤ j ∧ j < en
    · rw [if_pos hj, h j hj.1 hj.2]
    · rw [if_neg hj]
  · rw [patchRange_count]
    have : (List.range' s (en - s)).filter (fun i => nv i (buf i) != buf i) = [] := by
      rw [List.filter_eq_nil_iff]
      intro i hi
      have hmem := List.mem_range'_1.mp hi
      simp [h i hmem.1 (by omega)]
    rw [this]
    rfl

/-! ## Frame lemmas: which offsets an operation can write -/

theorem untouched_refl (P : Nat → Prop) (e : Engine) : Untouched P e e :=
  ⟨rfl, rfl, rfl, rfl, rfl, rfl, fun _ _ => rfl⟩

theorem untouched_trans {P : Nat → Prop} {e1 e2 e3 : Engine}
    (h1 : Untouched P e1 e2) (h2 : Untouched P e2 e3) : Untouched P e1 e3 := by
  obtain ⟨a1, b1, c1, d1, f1, g1, k1⟩ := h1
  obtain ⟨a2, b2, c2, d2, f2, g2, k2⟩ := h2
  exact ⟨a2.trans a1, b2.trans b1, c2.trans c1, d2.trans d1, f2.trans f1,
    g2.trans g1, fun j hj => (k2 j hj).trans (k1 j hj)⟩

theorem note_untouched (P : Nat → Prop) (e : Engine) (t : String) :
    Untouched P e (note e t) :=
  ⟨rfl, rfl, rfl, rfl, rfl, rfl, fun _ _ => rfl⟩

theorem changesOnly_untouched (P : Nat → Prop) (e : Engine) (cs : List LogEntry) :
    Untouched P e { e with changes := cs } :=
  ⟨rfl, rfl, rfl, rfl, rfl, rfl, fun _ _ => rfl⟩

theorem delta_range_e_untouched (P : Nat → Prop) (e : Engine)
    (addr s en : Nat) (d : Int) (lbl : String)
    (h : ∀ j, P j → j < addr + s ∨ addr + en ≤ j) :
    Untouched P e (delta_range_e e addr s en d lbl) := by
  refine ⟨rfl, rfl, rfl, rfl, rfl, rfl, fun j hj => ?_⟩
  show (delta_range e.buf.data addr s en d).1 j = e.buf.data j
  exact patchRange_outside _ _ _ _ _ (h j hj)

theorem write_u16be_untouched (P : Nat → Prop) (e : Engine)
    (addr v : Nat) (lbl : String)
    (h : ∀ j, P j → j ≠ addr ∧ j ≠ addr + 1) :
    Untouched P e (write_u16be e addr v lbl) := by
  refine ⟨rfl, rfl, rfl, rfl, rfl, rfl, fun j hj => ?_⟩
  show upd (upd e.buf.data addr (v / 256 % 256)) (addr + 1) (v % 256) j = e.buf.data j
  rw [upd_ne _ _ _ _ (h j hj).2, upd_ne _ _ _ _ (h j hj).1]

theorem foldl_untouched {α : Type} (P : Nat → Prop) (l : List α)
    (g : Engine → α → Engine)
    (h : ∀ (e' : Engine) (a : α), a ∈ l → Untouched P e' (g e' a)) :
    ∀ e : Engine, Untouched P e (l.foldl g e) := by
  induction l with
  | nil => intro e; exact untouched_refl P e
  | cons hd tl ih =>
    intro e
    rw [List.foldl_cons]
    refine untouched_trans (h e hd (List.mem_cons_self hd tl)) ?_
    exact ih (fun e' a ha => h e' a (List.mem_cons_of_mem hd ha)) (g e hd)

theorem ignZones_untouched (P : Nat → Prop) (wot pl ov : Int) (e : Engine)
    (h : ∀ a ∈ e.profile.ign_maps, ∀ j, P j → j < a ∨ a + IGN_OVER_END ≤ j) :
    Untouched P e (ignZones wot pl ov e) := by
  refine foldl_untouched P _ _ ?_ e
  intro e' a ha
  dsimp only
  have hcond := h a ha
  have hz : ∀ (s en : Nat), en ≤ IGN_OVER_END → ∀ j, P j → j < a + s ∨ a + en ≤ j := by
    intro s en hen j hj
    rcases hcond j hj with h1 | h1
    · left; omega
    · right; omega
  refine untouched_trans (delta_range_e_untouched P e' a IGN_WOT_START IGN_WOT_END wot "Ign WOT"
    (hz _ _ (by simp [IGN_WOT_END, IGN_OVER_END]))) ?_
  refine untouched_trans (delta_range_e_untouched P _ a IGN_PL_START IGN_PL_END pl "Ign Part-load"
    (hz _ _ (by simp [IGN_PL_END, IGN_OVER_END]))) ?_
  by_cases hov : ov ≠ 0
  · rw [if_pos hov]
    exact delta_range_e_untouched P _ a IGN_OVER_START IGN_OVER_END ov "Ign Overrun"
      (hz _ _ (by simp [IGN_OVER_END]))
  · rw [if_neg hov]
    exact untouched_refl P _

theorem fuelZones_untouched (P : Nat → Prop) (wot pl ov : Int) (e : Engine)
    (h : ∀ a ∈ e.profile.fuel_maps, ∀ j, P j → j < a ∨ a + FUEL_OVER_END ≤ j) :
    Untouched P e (fuelZones wot pl ov e) := by
  refine foldl_untouched P _ _ ?_ e
  intro e' a ha
  dsimp only
  have hcond := h a ha
  have hz : ∀ (s en : Nat), en ≤ FUEL_OVER_END → ∀ j, P j → j < a + s ∨ a + en ≤ j := by
    intro s en hen j hj
    rcases hcond j hj with h1 | h1
    · left; omega
    · right; omega
  refine untouched_trans (delta_range_e_untouched P e' a FUEL_WOT_START FUEL_WOT_END wot "Fuel WOT"
    (hz _ _ (by simp [FUEL_WOT_END, FUEL_OVER_END]))) ?_
  refine untouched_trans (delta_range_e_untouched P _ a FUEL_PL_START FUEL_PL_END pl "Fuel Part-load"
    (hz _ _ (by simp [FUEL_PL_END, FUEL_OVER_END]))) ?_
  by_cases hov : ov ≠ 0
  · rw [if_pos hov]
    exact delta_range_e_untouched P _ a FUEL_OVER_START FUEL_OVER_END ov "Fuel Overrun enrich"
      (hz _ _ (by simp [FUEL_OVER_END]))
  · rw [if_neg hov]
    exact untouched_refl P _

theorem lambdaZones_untouched (P : Nat → Prop) (wot pl : Int) (e : Engine)
    (h : ∀ a ∈ e.profile.lambda_maps, ∀ j, P j → j < a ∨ a + IGN_PL_END ≤ j) :
    Untouched P e (lambdaZones wot pl e) := by
  refine foldl_untouched P _ _ ?_ e
  intro e' a ha
  dsimp only
  have hcond := h a ha
  have hz : ∀ (s en : Nat), en ≤ IGN_PL_END → ∀ j, P j → j < a + s ∨ a + en ≤ j := by
    intro s en hen j hj
    rcases hcond j hj with h1 | h1
    · left; omega
    · right; omega
  refine untouched_trans (delta_range_e_untouched P e' a IGN_WOT_START IGN_WOT_END wot "Lambda WOT"
    (hz _ _ (by simp [IGN_WOT_END, IGN_PL_END]))) ?_
  by_cases hpl : pl ≠ 0
  · rw [if_pos hpl]
    exact delta_range_e_untouched P _ a IGN_PL_START IGN_PL_END pl "Lambda PL"
      (hz _ _ (by simp [IGN_PL_END]))
  · rw [if_neg hpl]
    exact untouched_refl P _

theorem trims_untouched (P : Nat → Prop) (d : Int) (e : Engine)
    (h : ∀ t ∈ e.profile.ign_trims, ∀ j, P j → j < t.1 ∨ t.1 + t.2 ≤ j) :
    Untouched P e (trims d e) := by
  refine foldl_untouched P _ _ ?_ e
  intro e' t ht
  refine delta_range_e_untouched P e' t.1 0 t.2 d _ ?_
  intro j hj
  rcases h t ht j hj with h1 | h1
  · left; omega
  · right; omega

theorem apply_rev_limit_untouched (P : Nat → Prop) (rpm : Nat) (e : Engine)
    (he : ∀ a ∈ revEngageAddrs e, ∀ j, P j → j ≠ a ∧ j ≠ a + 1)
    (hh : ∀ a ∈ revHysterAddrs e, ∀ j, P j → j ≠ a ∧ j ≠ a + 1) :
    Untouched P e (apply_rev_limit rpm e) := by
  rw [apply_rev_limit]
  by_cases h1 : (revEngageAddrs e).isEmpty
  · rw [if_pos h1]
    exact note_untouched P e _
  · rw [if_neg h1]
    by_cases h2 : rpm = revResolvedOrig e
    · rw [if_pos h2]
      exact untouched_refl P e
    · rw [if_neg h2]
      dsimp only
      refine untouched_trans (changesOnly_untouched P e
        (e.changes ++ [LogEntry.revLimitHeader (revResolvedOrig e) rpm])) ?_
      refine untouched_trans (foldl_untouched P (revEngageAddrs e)
        (fun acc a => write_u16be acc a rpm "Fuel cut engage") ?_ _) ?_
      · intro e' a ha
        exact write_u16be_untouched P e' a rpm "Fuel cut engage" (he a ha)
      · by_cases h3 : (revHysterAddrs e).isEmpty
        · rw [if_pos h3]
          exact untouched_refl P _
        · rw [if_neg h3]
          refine foldl_untouched P (revHysterAddrs e)
            (fun acc a => write_u16be acc a (rpm - 6) "Fuel cut hyster") ?_ _
          intro e' a ha
          exact write_u16be_untouched P e' a (rpm - 6) "Fuel cut hyster" (hh a ha)

theorem apply_idle_rpm_untouched (P : Nat → Prop) (rpm : Nat) (e : Engine)
    (h : ∀ a ∈ e.profile.idle_rpm, ∀ j, P j → j ≠ a ∧ j ≠ a + 1) :
    Untouched P e (apply_idle_rpm rpm e) := by
  rw [apply_idle_rpm]
  by_cases h1 : rpm = readU16 e.orig.data (e.profile.idle_rpm.headD 0)
  · rw [if_pos h1]
    exact untouched_refl P e
  · rw [if_neg h1]
    dsimp only
    refine untouched_trans (changesOnly_untouched P e
      (e.changes ++ [LogEntry.idleHeader (readU16 e.orig.data (e.profile.idle_rpm.headD 0)) rpm])) ?_
    refine foldl_untouched P e.profile.idle_rpm
      (fun acc a => write_u16be acc a rpm "Idle target") ?_ _
    intro e' a ha
    exact write_u16be_untouched P e' a rpm "Idle target" (h a ha)

theorem apply_knock_protection_untouched (P : Nat → Prop) (level : String) (e : Engine)
    (h : ∀ j, P j → j ≠ e.profile.knock_thr) :
    Untouched P e (apply_knock_protection level e) := by
  rw [apply_knock_protection]
  split_ifs with h1
  · refine ⟨rfl, rfl, rfl, rfl, rfl, rfl, fun j hj => ?_⟩
    exact upd_ne _ _ _ _ (h j hj)
  · exact untouched_refl P e

theorem apply_iat_correction_untouched (P : Nat → Prop) (f : Nat → Int) (e : Engine)
    (h : ∀ j, P j → j < e.profile.iat_area.1 ∨ e.profile.iat_area.2 ≤ j) :
    Untouched P e (apply_iat_correction f e) := by
  rw [apply_iat_correction]
  by_cases h1 : (patchRange e.buf.data e.profile.iat_area.1 e.profile.iat_area.2
      (fun i _ => clamp (f (e.orig.data i)))).2 ≠ 0
  · rw [if_pos h1]
    refine ⟨rfl, rfl, rfl, rfl, rfl, rfl, fun j hj => ?_⟩
    exact patchRange_outside _ _ _ _ _ (h j hj)
  · rw [if_neg h1]
    refine ⟨rfl, rfl, rfl, rfl, rfl, rfl, fun j hj => ?_⟩
    exact patchRange_outside _ _ _ _ _ (h j hj)

theorem disable_lambda_untouched (P : Nat → Prop) (e : Engine)
    (ho : ∀ j, P j → j < e.profile.o2_auth.1 ∨ e.profile.o2_auth.2 ≤ j)
    (hl : ∀ a ∈ e.profile.lambda_maps, ∀ j, P j → j < a ∨ a + IGN_PL_END ≤ j) :
    Untouched P e (disable_lambda e) := by
  rw [disable_lambda]
  have hmid : Untouched P e
      { note e "Lambda/O2 Closed-Loop DISABLED" with
          buf := ⟨(note e "Lambda/O2 Closed-Loop DISABLED").buf.size,
            (patchRange (note e "Lambda/O2 Closed-Loop DISABLED").buf.data
              (note e "Lambda/O2 Closed-Loop DISABLED").profile.o2_auth.1
              (note e "Lambda/O2 Closed-Loop DISABLED").profile.o2_auth.2
              (fun _ b => if 0x80 < b then 0x80 else b)).1⟩
          , changes := (note e "Lambda/O2 Closed-Loop DISABLED").changes ++
              [LogEntry.clAuthLine (patchRange
                (note e "Lambda/O2 Closed-Loop DISABLED").buf.data
                (note e "Lambda/O2 Closed-Loop DISABLED").profile.o2_auth.1
                (note e "Lambda/O2 Closed-Loop DISABLED").profile.o2_auth.2
                (fun _ b => if 0x80 < b then 0x80 else b)).2] } := by
    refine ⟨rfl, rfl, rfl, rfl, rfl, rfl, fun j hj => ?_⟩
    exact patchRange_outside _ _ _ _ _ (ho j hj)
  refine untouched_trans hmid ?_
  exact lambdaZones_untouched P _ _ _ hl

theorem disable_dtc_untouched (P : Nat → Prop) (e : Engine)
    (h : ∀ j, P j → j < e.profile.dtc_area.1 ∨ e.profile.dtc_area.2 ≤ j) :
    Untouched P e (disable_dtc e) := by
  rw [disable_dtc]
  refine ⟨rfl, rfl, rfl, rfl, rfl, rfl, fun j hj => ?_⟩
  exact patchRange_outside _ _ _ _ _ (h j hj)

theorem disable_egr_untouched (P : Nat → Prop) (e : Engine) :
    Untouched P e (disable_egr e) :=
  note_untouched P e _

theorem untouched_profile {P : Nat → Prop} {e e2 : Engine}
    (h : Untouched P e e2) : e2.profile = e.profile := h.2.2.1

theorem untouched_scannedAddr {P : Nat → Prop} {e e2 : Engine}
    (h : Untouched P e e2) : e2.scannedRevAddr = e.scannedRevAddr := h.2.2.2.1

theorem revEngageAddrs_congr {e1 e2 : Engine}
    (hp : e2.profile = e1.profile) (hs : e2.scannedRevAddr = e1.scannedRevAddr) :
    revEngageAddrs e2 = revEngageAddrs e1 := by
  rw [revEngageAddrs, revEngageAddrs, hp, hs]

theorem revHysterAddrs_congr {e1 e2 : Engine}
    (hp : e2.profile = e1.profile) (hs : e2.scannedRevAddr = e1.scannedRevAddr) :
    revHysterAddrs e2 = revHysterAddrs e1 := by
  rw [revHysterAddrs, revHysterAddrs, hp, hs]

theorem deltaChain_untouched (P : Nat → Prop) (iw ip io fw fp fo td lw lp : Int)
    (e : Engine)
    (hi : ∀ a ∈ e.profile.ign_maps, ∀ j, P j → j < a ∨ a + IGN_OVER_END ≤ j)
    (hf : ∀ a ∈ e.profile.fuel_maps, ∀ j, P j → j < a ∨ a + FUEL_OVER_END ≤ j)
    (ht : ∀ t ∈ e.profile.ign_trims, ∀ j, P j → j < t.1 ∨ t.1 + t.2 ≤ j)
    (hl : ∀ a ∈ e.profile.lambda_maps, ∀ j, P j → j < a ∨ a + IGN_PL_END ≤ j) :
    Untouched P e (lambdaZones lw lp (trims td (fuelZones fw fp fo (ignZones iw ip io e)))) := by
  have H1 : Untouched P e (ignZones iw ip io e) := ignZones_untouched P iw ip io e hi
  have H2 : Untouched P (ignZones iw ip io e)
      (fuelZones fw fp fo (ignZones iw ip io e)) := by
    refine fuelZones_untouched P fw fp fo _ ?_
    rw [untouched_profile H1]
    exact hf
  have H3 : Untouched P (fuelZones fw fp fo (ignZones iw ip io e))
      (trims td (fuelZones fw fp fo (ignZones iw ip io e))) := by
    refine trims_untouched P td _ ?_
    rw [untouched_profile H2, untouched_profile H1]
    exact ht
  have H4 : Untouched P (trims td (fuelZones fw fp fo (ignZones iw ip io e)))
      (lambdaZones lw lp (trims td (fuelZones fw fp fo (ignZones iw ip io e)))) := by
    refine lambdaZones_untouched P lw lp _ ?_
    rw [untouched_profile H3, untouched_profile H2, untouched_profile H1]
    exact hl
  exact untouched_trans H1 (untouched_trans H2 (untouched_trans H3 H4))

theorem apply_stage1_untouched (P : Nat → Prop) (e : Engine)
    (hi : ∀ a ∈ e.profile.ign_maps, ∀ j, P j → j < a ∨ a + IGN_OVER_END ≤ j)
    (hf : ∀ a ∈ e.profile.fuel_maps, ∀ j, P j → j < a ∨ a + FUEL_OVER_END ≤ j)
    (ht : ∀ t ∈ e.profile.ign_trims, ∀ j, P j → j < t.1 ∨ t.1 + t.2 ≤ j)
    (hl : ∀ a ∈ e.profile.lambda_maps, ∀ j, P j → j < a ∨ a + IGN_PL_END ≤ j) :
    Untouched P e (apply_stage1 e) := by
  rw [apply_stage1]
  have hnotes : Untouched P e (note (note (note (note e
      "Stage 1 [verified against real Stage1 binary]") "Ign: +2 WOT / +1 PL")
      "Fuel: +2 WOT / +1 PL") "Lambda: -7 WOT | RPM limit: unchanged") :=
    ⟨rfl, rfl, rfl, rfl, rfl, rfl, fun _ _ => rfl⟩
  exact untouched_trans hnotes (deltaChain_untouched P 2 1 0 2 1 0 1 (-7) 0 _ hi hf ht hl)

theorem apply_stage1plus_untouched (P : Nat → Prop) (e : Engine)
    (hi : ∀ a ∈ e.profile.ign_maps, ∀ j, P j → j < a ∨ a + IGN_OVER_END ≤ j)
    (hf : ∀ a ∈ e.profile.fuel_maps, ∀ j, P j → j < a ∨ a + FUEL_OVER_END ≤ j)
    (ht : ∀ t ∈ e.profile.ign_trims, ∀ j, P j → j < t.1 ∨ t.1 + t.2 ≤ j)
    (hl : ∀ a ∈ e.profile.lambda_maps, ∀ j, P j → j < a ∨ a + IGN_PL_END ≤ j) :
    Untouched P e (apply_stage1plus e) := by
  rw [apply_stage1plus]
  have hnotes : Untouched P e (note (note (note e
      "Stage 1+ [moderate, uniform]") "Ign: +3 WOT / +2 PL | Fuel: +3 WOT / +2 PL")
      "Lambda: -9 WOT / -3 PL") :=
    ⟨rfl, rfl, rfl, rfl, rfl, rfl, fun _ _ => rfl⟩
  exact untouched_trans hnotes (deltaChain_untouched P 3 2 0 3 2 0 1 (-9) (-3) _ hi hf ht hl)

theorem apply_stage2_untouched (P : Nat → Prop) (e : Engine)
    (hi : ∀ a ∈ e.profile.ign_maps, ∀ j, P j → j < a ∨ a + IGN_OVER_END ≤ j)
    (hf : ∀ a ∈ e.profile.fuel_maps, ∀ j, P j → j < a ∨ a + FUEL_OVER_END ≤ j)
    (ht : ∀ t ∈ e.profile.ign_trims, ∀ j, P j → j < t.1 ∨ t.1 + t.2 ≤ j)
    (hl : ∀ a ∈ e.profile.lambda_maps, ∀ j, P j → j < a ∨ a + IGN_PL_END ≤ j)
    (he : ∀ a ∈ revEngageAddrs e, ∀ j, P j → j ≠ a ∧ j ≠ a + 1)
    (hh : ∀ a ∈ revHysterAddrs e, ∀ j, P j → j ≠ a ∧ j ≠ a + 1) :
    Untouched P e (apply_stage2 e) := by
  rw [apply_stage2]
  have hnotes : Untouched P e (note (note (note e
      "Stage 2 [aggressive + 6800 RPM]") "Ign: +5 WOT / +3 PL | Fuel: +4 WOT / +2 PL")
      "Lambda: -11 WOT / -5 PL | Rev limit: 6800 RPM") :=
    ⟨rfl, rfl, rfl, rfl, rfl, rfl, fun _ _ => rfl⟩
  have hchain := deltaChain_untouched P 5 3 0 4 2 0 2 (-11) (-5)
    (note (note (note e "Stage 2 [aggressive + 6800 RPM]")
      "Ign: +5 WOT / +3 PL | Fuel: +4 WOT / +2 PL")
      "Lambda: -11 WOT / -5 PL | Rev limit: 6800 RPM") hi hf ht hl
  refine untouched_trans hnotes (untouched_trans hchain ?_)
  refine apply_rev_limit_untouched P 6800 _ ?_ ?_
  · rw [revEngageAddrs_congr (untouched_profile hchain) (untouched_scannedAddr hchain)]
    exact he
  · rw [revHysterAddrs_congr (untouched_profile hchain) (untouched_scannedAddr hchain)]
    exact hh

theorem apply_pop_bang_untouched (P : Nat → Prop) (e : Engine)
    (hi : ∀ a ∈ e.profile.ign_maps, ∀ j, P j → j < a ∨ a + IGN_OVER_END ≤ j)
    (hf : ∀ a ∈ e.profile.fuel_maps, ∀ j, P j → j < a ∨ a + FUEL_OVER_END ≤ j) :
    Untouched P e (apply_pop_bang e) := by
  rw [apply_pop_bang]
  have hnotes : Untouched P e (note (note e "Pop and Bang [overrun zone]")
      "Ign overrun: -12 counts | Fuel overrun: +4 counts") :=
    ⟨rfl, rfl, rfl, rfl, rfl, rfl, fun _ _ => rfl⟩
  have H1 : Untouched P (note (note e "Pop and Bang [overrun zone]")
      "Ign overrun: -12 counts | Fuel overrun: +4 counts")
      (ignZones 0 0 (-12) (note (note e "Pop and Bang [overrun zone]")
        "Ign overrun: -12 counts | Fuel overrun: +4 counts")) :=
    ignZones_untouched P 0 0 (-12) _ hi
  refine untouched_trans hnotes (untouched_trans H1 ?_)
  refine fuelZones_untouched P 0 0 4 _ ?_
  rw [untouched_profile H1]
  exact hf

theorem apply_burble_untouched (P : Nat → Prop) (e : Engine)
    (hi : ∀ a ∈ e.profile.ign_maps, ∀ j, P j → j < a ∨ a + IGN_OVER_END ≤ j)
    (hf : ∀ a ∈ e.profile.fuel_maps, ∀ j, P j → j < a ∨ a + FUEL_OVER_END ≤ j) :
    Untouched P e (apply_burble e) := by
  rw [apply_burble]
  have hnotes : Untouched P e (note (note e "Burble [aggressive overrun]")
      "Ign overrun: -20 counts | Fuel overrun: +7 counts") :=
    ⟨rfl, rfl, rfl, rfl, rfl, rfl, fun _ _ => rfl⟩
  have H1 : Untouched P (note (note e "Burble [aggressive overrun]")
      "Ign overrun: -20 counts | Fuel overrun: +7 counts")
      (ignZones 0 0 (-20) (note (note e "Burble [aggressive overrun]")
        "Ign overrun: -20 counts | Fuel overrun: +7 counts")) :=
    ignZones_untouched P 0 0 (-20) _ hi
  refine untouched_trans hnotes (untouched_trans H1 ?_)
  refine fuelZones_untouched P 0 0 7 _ ?_
  rw [untouched_profile H1]
  exact hf

theorem registry_bounded (p : Profile) (hp : p ∈ registryProfiles) :
    ProfileBounded p 524288 := by
  have hreg : registryProfiles = [profile12591333, profile12215796,
      profile12578132, profile12210633, profileGeneric] := rfl
  rw [hreg] at hp
  simp only [List.mem_cons, List.not_mem_nil, or_false] at hp
  rcases hp with h | h | h | h | h <;> subst h <;> unfold ProfileBounded <;> decide

theorem revEngageAddrs_bounded (e : Engine) (n : Nat)
    (hp : ∀ a ∈ e.profile.rpm_engage.getD [], a + 2 ≤ n)
    (hs : ∀ sa, e.scannedRevAddr = some sa → sa + 16 ≤ n) :
    ∀ a ∈ revEngageAddrs e, a + 2 ≤ n := by
  intro a ha
  rw [revEngageAddrs] at ha
  by_cases hpe : (e.profile.rpm_engage.getD []).isEmpty
  · rw [if_pos hpe] at ha
    cases hsc : e.scannedRevAddr with
    | none =>
      rw [hsc] at ha
      exact hp a ha
    | some sa =>
      rw [hsc] at ha
      have hb := hs sa hsc
      simp only [List.mem_cons, List.not_mem_nil, or_false] at ha
      rcases ha with h | h <;> omega
  · rw [if_neg hpe] at ha
    exact hp a ha

theorem revHysterAddrs_bounded (e : Engine) (n : Nat)
    (hp : ∀ a ∈ e.profile.rpm_hyster.getD [], a + 2 ≤ n)
    (hs : ∀ sa, e.scannedRevAddr = some sa → sa + 16 ≤ n) :
    ∀ a ∈ revHysterAddrs e, a + 2 ≤ n := by
  intro a ha
  rw [revHysterAddrs] at ha
  by_cases hpe : (e.profile.rpm_engage.getD []).isEmpty
  · rw [if_pos hpe] at ha
    cases hsc : e.scannedRevAddr with
    | none =>
      rw [hsc] at ha
      exact hp a ha
    | some sa =>
      rw [hsc] at ha
      have hb := hs sa hsc
      simp only [List.mem_cons, List.not_mem_nil, or_false] at ha
      rcases ha with h | h | h | h <;> omega
  · rw [if_neg hpe] at ha
    exact hp a ha

theorem applyOp_untouched_ge (op : Op) (e : Engine) (n : Nat)
    (hb : ProfileBounded e.profile n)
    (hs : ∀ sa, e.scannedRevAddr = some sa → sa + 16 ≤ n) :
    Untouched (fun j => n ≤ j) e (applyOp op e) := by
  obtain ⟨b1, b2, b3, b4, b5, b6, b7, b8, b9, b10, b11⟩ := hb
  have hi : ∀ a ∈ e.profile.ign_maps, ∀ j, n ≤ j → j < a ∨ a + IGN_OVER_END ≤ j :=
    fun a ha j hj => Or.inr (by have := b1 a ha; omega)
  have hf : ∀ a ∈ e.profile.fuel_maps, ∀ j, n ≤ j → j < a ∨ a + FUEL_OVER_END ≤ j :=
    fun a ha j hj => Or.inr (by have := b2 a ha; omega)
  have ht : ∀ t ∈ e.profile.ign_trims, ∀ j, n ≤ j → j < t.1 ∨ t.1 + t.2 ≤ j :=
    fun t htm j hj => Or.inr (by have := b3 t htm; omega)
  have hl : ∀ a ∈ e.profile.lambda_maps, ∀ j, n ≤ j → j < a ∨ a + IGN_PL_END ≤ j :=
    fun a ha j hj => Or.inr (by
      have := b4 a ha
      have hle : IGN_PL_END ≤ IGN_OVER_END := by simp [IGN_PL_END, IGN_OVER_END]
      omega)
  have he : ∀ a ∈ revEngageAddrs e, ∀ j, n ≤ j → j ≠ a ∧ j ≠ a + 1 := by
    intro a ha j hj
    have := revEngageAddrs_bounded e n b5 hs a ha
    omega
  have hh : ∀ a ∈ revHysterAddrs e, ∀ j, n ≤ j → j ≠ a ∧ j ≠ a + 1 := by
    intro a ha j hj
    have := revHysterAddrs_bounded e n b6 hs a ha
    omega
  have hidle : ∀ a ∈ e.profile.idle_rpm, ∀ j, n ≤ j → j ≠ a ∧ j ≠ a + 1 := by
    intro a ha j hj
    have := b7 a ha
    omega
  cases op with
  | stage1 => exact apply_stage1_untouched _ e hi hf ht hl
  | stage1plus => exact apply_stage1plus_untouched _ e hi hf ht hl
  | stage2 => exact apply_stage2_untouched _ e hi hf ht hl he hh
  | popBang => exact apply_pop_bang_untouched _ e hi hf
  | burble => exact apply_burble_untouched _ e hi hf
  | revLimit rpm => exact apply_rev_limit_untouched _ rpm e he hh
  | idleRpm rpm => exact apply_idle_rpm_untouched _ rpm e hidle
  | knock level =>
    refine apply_knock_protection_untouched _ level e ?_
    intro j hj
    omega
  | iatCorrection f =>
    refine apply_iat_correction_untouched _ f e ?_
    intro j hj
    right
    omega
  | lambdaDisable =>
    refine disable_lambda_untouched _ e ?_ hl
    intro j hj
    right
    omega
  | egrDisable => exact disable_egr_untouched _ e
  | dtcDisable =>
    refine disable_dtc_untouched _ e ?_
    intro j hj
    right
    omega

theorem applyOp_untouched_false (op : Op) (e : Engine) :
    Untouched (fun _ => False) e (applyOp op e) := by
  have hv2 : ∀ (m : List Nat) (b : Nat), ∀ a ∈ m, ∀ j, False → j < a ∨ a + b ≤ j :=
    fun _ _ _ _ _ hj => False.elim hj
  have hv3 : ∀ (m : List (Nat × Nat)), ∀ t ∈ m, ∀ j, False → j < t.1 ∨ t.1 + t.2 ≤ j :=
    fun _ _ _ _ hj => False.elim hj
  have hv4 : ∀ (m : List Nat), ∀ a ∈ m, ∀ j, False → j ≠ a ∧ j ≠ a + 1 :=
    fun _ _ _ _ hj => False.elim hj
  cases op with
  | stage1 =>
    exact apply_stage1_untouched _ e (hv2 _ _) (hv2 _ _) (hv3 _) (hv2 _ _)
  | stage1plus =>
    exact apply_stage1plus_untouched _ e (hv2 _ _) (hv2 _ _) (hv3 _) (hv2 _ _)
  | stage2 =>
    exact apply_stage2_untouched _ e (hv2 _ _) (hv2 _ _) (hv3 _) (hv2 _ _) (hv4 _) (hv4 _)
  | popBang =>
    exact apply_pop_bang_untouched _ e (hv2 _ _) (hv2 _ _)
  | burble =>
    exact apply_burble_untouched _ e (hv2 _ _) (hv2 _ _)
  | revLimit rpm =>
    exact apply_rev_limit_untouched _ rpm e (hv4 _) (hv4 _)
  | idleRpm rpm =>
    exact apply_idle_rpm_untouched _ rpm e (hv4 _)
  | knock level =>
    exact apply_knock_protection_untouched _ level e (fun _ hj => False.elim hj)
  | iatCorrection f =>
    exact apply_iat_correction_untouched _ f e (fun _ hj => False.elim hj)
  | lambdaDisable =>
    exact disable_lambda_untouched _ e (fun _ hj => False.elim hj) (hv2 _ _)
  | egrDisable =>
    exact disable_egr_untouched _ e
  | dtcDisable =>
    exact disable_dtc_untouched _ e (fun _ hj => False.elim hj)

theorem applyOps_orig (ops : List Op) : ∀ e : Engine, (applyOps ops e).orig = e.orig := by
  induction ops with
  | nil => intro e; rfl
  | cons op rest ih =>
    intro e
    rw [applyOps, List.foldl_cons]
    have h1 := (applyOp_untouched_false op e).1
    have h2 := ih (applyOp op e)
    rw [applyOps] at h2
    rw [h2, h1]

theorem delta_range_data (buf : Nat → Nat) (addr s en : Nat) (d : Int) :
    (delta_range buf addr s en d).1 =
      fun j => if addr + s ≤ j ∧ j < addr + en then clamp ((buf j : Int) + d) else buf j :=
  patchRange_data buf (addr + s) (addr + en) (fun _ b => clamp ((b : Int) + d))

theorem delta_range_outside (buf : Nat → Nat) (addr s en : Nat) (d : Int)
    (j : Nat) (h : j < addr + s ∨ addr + en ≤ j) :
    (delta_range buf addr s en d).1 j = buf j :=
  patchRange_outside buf (addr + s) (addr + en) _ j h

theorem delta_range_e_noop_of (e : Engine) (addr s en : Nat) (d : Int) (lbl : String)
    (h : ∀ j, addr + s ≤ j → j < addr + en → clamp ((e.buf.data j : Int) + d) = e.buf.data j) :
    delta_range_e e addr s en d lbl = e := by
  have hr : delta_range e.buf.data addr s en d = (e.buf.data, 0) :=
    patchRange_id _ _ _ _ (fun j h1 h2 => h j h1 h2)
  simp [delta_range_e, hr]

/-! ## Claim theorems -/

/-- C1 (confirmed): every byte actually written by `_delta_range` receives
the value `clamp(oldWorkingValue + delta)` and hence lies in [1, 254];
offsets outside the zone `[addr+start, addr+end)` are never written; and the
returned count is exactly the number of zone offsets whose value was altered
relative to the working value the call started from. -/
theorem delta_range_clamp_and_count (buf : Nat → Nat) (addr s en : Nat) (d : Int) :
    (∀ j, (delta_range buf addr s en d).1 j ≠ buf j →
        (delta_range buf addr s en d).1 j = clamp ((buf j : Int) + d) ∧
        1 ≤ (delta_range buf addr s en d).1 j ∧
        (delta_range buf addr s en d).1 j ≤ 254) ∧
    (∀ j, j < addr + s ∨ addr + en ≤ j → (delta_range buf addr s en d).1 j = buf j) ∧
    (delta_range buf addr s en d).2 =
      ((List.range' (addr + s) (en - s)).filter
        (fun j => (delta_range buf addr s en d).1 j != buf j)).length := by
  refine ⟨?_, ?_, ?_⟩
  · intro j hne
    by_cases hj : addr + s ≤ j ∧ j < addr + en
    · have hv : (delta_range buf addr s en d).1 j = clamp ((buf j : Int) + d) := by
        rw [delta_range_data]
        exact if_pos hj
      exact ⟨hv, by rw [hv]; exact clamp_ge_one _, by rw [hv]; exact clamp_le_254 _⟩
    · exact absurd (delta_range_outside buf addr s en d j (by omega)) hne
  · exact delta_range_outside buf addr s en d
  · have hc : (delta_range buf addr s en d).2 =
        ((List.range' (addr + s) ((addr + en) - (addr + s))).filter
          (fun i => clamp ((buf i : Int) + d) != buf i)).length :=
      patchRange_count buf (addr + s) (addr + en) _
    rw [hc]
    have hsub : (addr + en) - (addr + s) = en - s := by omega
    rw [hsub]
    congr 1
    apply List.filter_congr
    intro i hi
    have hmem := List.mem_range'_1.mp hi
    have hin : (delta_range buf addr s en d).1 i = clamp ((buf i : Int) + d) := by
      rw [delta_range_data]
      exact if_pos (by omega)
    rw [hin]

/-- Witness for C1 at a concrete input: constant-100 buffer, zone
`[2+1, 2+4)`, delta +7. -/
theorem delta_range_clamp_and_count_witness :
    (delta_range buf100 2 1 4 7).1 5 = clamp ((buf100 5 : Int) + 7) ∧
    1 ≤ (delta_range buf100 2 1 4 7).1 5 ∧
    (delta_range buf100 2 1 4 7).1 5 ≤ 254 ∧
    (delta_range buf100 2 1 4 7).1 0 = buf100 0 ∧
    (delta_range buf100 2 1 4 7).2 =
      ((List.range' 3 3).filter
        (fun j => (delta_range buf100 2 1 4 7).1 j != buf100 j)).length := by
  have h := delta_range_clamp_and_count buf100 2 1 4 7
  have h1 := h.1 5 (by decide)
  exact ⟨h1.1, h1.2.1, h1.2.2, h.2.1 0 (Or.inl (by decide)), h.2.2⟩

/-- C2 (confirmed): after any sequence of tune operations, `reset` restores
the working buffer to byte-for-byte equality with the original buffer (which
the operations never touched), empties the change log, and
`changed_byte_count` is exactly 0. -/
theorem reset_restores_original (e : Engine) (ops : List Op) :
    (reset (applyOps ops e)).buf = (applyOps ops e).orig ∧
    (reset (applyOps ops e)).buf = e.orig ∧
    (reset (applyOps ops e)).changes = [] ∧
    changed_byte_count (reset (applyOps ops e)) = 0 := by
  refine ⟨rfl, ?_, rfl, ?_⟩
  · show (applyOps ops e).orig = e.orig
    exact applyOps_orig ops e
  · simp [changed_byte_count, reset]

/-- C4 counterexample: `applyDelta` with `delta == 0` is not a no-op on a
working buffer holding byte 0 in the zone: the byte is rewritten to
`clamp(0) = 1` and the changed-cell count is 1, not 0. -/
theorem delta_zero_counterexample :
    (delta_range zeroBuf 0 0 1 0).2 = 1 ∧
    (delta_range zeroBuf 0 0 1 0).1 0 = 1 ∧ zeroBuf 0 = 0 := by
  decide

/-- C4 (amended): `applyDelta` is a no-op — the engine state, including the
working buffer and change log, is returned unchanged — when `delta == 0`
and every target byte already lies within the clamp range [1, 254]; likewise
when every target byte is already at the clamp bound in the delta's
direction (254 for positive delta, 1 for negative).  (Target bytes 0 or 255
are normalised into [1, 254] even when `delta == 0`.) -/
theorem delta_range_noop (e : Engine) (addr s en : Nat) (lbl : String) :
    ((∀ i, s ≤ i → i < en →
        1 ≤ e.buf.data (addr + i) ∧ e.buf.data (addr + i) ≤ 254) →
      delta_range_e e addr s en 0 lbl = e) ∧
    (∀ d : Int, 0 < d → (∀ i, s ≤ i → i < en → e.buf.data (addr + i) = 254) →
      delta_range_e e addr s en d lbl = e) ∧
    (∀ d : Int, d < 0 → (∀ i, s ≤ i → i < en → e.buf.data (addr + i) = 1) →
      delta_range_e e addr s en d lbl = e) := by
  refine ⟨?_, ?_, ?_⟩
  · intro hb
    refine delta_range_e_noop_of e addr s en 0 lbl ?_
    intro j h1 h2
    have hi := hb (j - addr) (by omega) (by omega)
    rw [show addr + (j - addr) = j by omega] at hi
    exact clamp_add_zero _ hi.1 hi.2
  · intro d hd hb
    refine delta_range_e_noop_of e addr s en d lbl ?_
    intro j h1 h2
    have hi := hb (j - addr) (by omega) (by omega)
    rw [show addr + (j - addr) = j by omega] at hi
    rw [hi]
    exact clamp_at_top d hd
  · intro d hd hb
    refine delta_range_e_noop_of e addr s en d lbl ?_
    intro j h1 h2
    have hi := hb (j - addr) (by omega) (by omega)
    rw [show addr + (j - addr) = j by omega] at hi
    rw [hi]
    exact clamp_at_bot d hd

/-- Witness for C4 (amended) on an all-100 engine: a zero delta over
`[0, 3)` returns the engine unchanged. -/
theorem delta_range_noop_witness : delta_range_e E100 0 0 3 0 "L" = E100 :=
  (delta_range_noop E100 0 0 3 "L").1
    (fun i _ _ => show 1 ≤ (100 : Nat) ∧ (100 : Nat) ≤ 254 by omega)

/-- C10 counterexample: PIN decoding does not always yield a 4-digit string:
bytes 0xA0 0x00 have a high nibble of 10, rendered as two decimal digits, so
the result is the 5-character string "10000". -/
theorem pin_decode_counterexample :
    decodePin 0xA0 0x00 = "10000" ∧ (decodePin 0xA0 0x00).length ≠ 4 := by
  constructor
  · rfl
  · decide

/-- C10 (amended): PIN decoding is a pure function of the two bytes at the
PIN address; each byte's high and low nibble are rendered in decimal and
concatenated, which yields a 4-digit string whenever all four nibbles are
valid BCD digits (at most 9); in particular 0x33 0x05 decodes to "3305" and
0x00 0x00 decodes to "0000". -/
theorem pin_decode_bcd (b0 b1 : Nat)
    (h0 : b0 / 16 ≤ 9) (h1 : b0 % 16 ≤ 9) (h2 : b1 / 16 ≤ 9) (h3 : b1 % 16 ≤ 9) :
    (decodePin b0 b1).length = 4 ∧
    decodePin 0x33 0x05 = "3305" ∧ decodePin 0x00 0x00 = "0000" := by
  have hlen : ∀ m : Nat, m ≤ 9 → (Nat.repr m).length = 1 := by
    intro m hm
    interval_cases m <;> rfl
  refine ⟨?_, rfl, rfl⟩
  rw [decodePin]
  rw [String.length_append, String.length_append, String.length_append]
  rw [hlen _ h0, hlen _ h1, hlen _ h2, hlen _ h3]

/-- Witness for C10 (amended) at the valid-BCD pair 0x33 0x05. -/
theorem pin_decode_bcd_witness :
    (decodePin 0x33 0x05).length = 4 ∧
    decodePin 0x33 0x05 = "3305" ∧ decodePin 0x00 0x00 = "0000" :=
  pin_decode_bcd 0x33 0x05 (by decide) (by decide) (by decide) (by decide)

/-! ## Lemmas for the heuristic rev-limit scanner -/

theorem range'_two_le : ∀ (n s : Nat), ∀ m ∈ List.range' s n 2, s ≤ m := by
  intro n
  induction n with
  | zero => intro s m hm; simp [List.range'] at hm
  | succ n ih =>
    intro s m hm
    rw [List.range'_succ] at hm
    rcases List.mem_cons.mp hm with h | h
    · omega
    · have := ih (s + 2) m h
      omega

theorem range'_two_pairwise : ∀ (n s : Nat), (List.range' s n 2).Pairwise (· < ·) := by
  intro n
  induction n with
  | zero => intro s; simp [List.range']
  | succ n ih =>
    intro s
    rw [List.range'_succ]
    refine List.Pairwise.cons ?_ (ih (s + 2))
    intro m hm
    have := range'_two_le n (s + 2) m hm
    omega

theorem filterMap_none {α β : Type} (l : List α) (f : α → Option β)
    (h : ∀ x ∈ l, f x = none) : l.filterMap f = [] := by
  induction l with
  | nil => rfl
  | cons hd tl ih =>
    rw [List.filterMap_cons, h hd (List.mem_cons_self hd tl)]
    exact ih (fun x hx => h x (List.mem_cons_of_mem hd hx))

theorem filterMap_single {β : Type} (l : List Nat) (f : Nat → Option β)
    (X : Nat) (u : β) (hpw : l.Pairwise (· < ·)) (hX : X ∈ l)
    (hfX : f X = some u) (hother : ∀ z ∈ l, z ≠ X → f z = none) :
    l.filterMap f = [u] := by
  induction l with
  | nil => simp at hX
  | cons hd tl ih =>
    have hpwtl := List.Pairwise.of_cons hpw
    by_cases hhdX : hd = X
    · rw [List.filterMap_cons, hhdX, hfX]
      have htl : ∀ z ∈ tl, f z = none := by
        intro z hz
        have hlt : hd < z := List.rel_of_pairwise_cons hpw hz
        exact hother z (List.mem_cons_of_mem hd hz) (by omega)
      rw [filterMap_none tl f htl]
    · have hmem : X ∈ tl := by
        rcases List.mem_cons.mp hX with h | h
        · exact absurd h.symm hhdX
        · exact h
      have hhd : f hd = none := hother hd (List.mem_cons_self hd tl) hhdX
      rw [List.filterMap_cons, hhd]
      exact ih hpwtl hmem
        (fun z hz hne => hother z (List.mem_cons_of_mem hd hz) hne)

theorem filterMap_pair {β : Type} (l : List Nat) (f : Nat → Option β)
    (X Y : Nat) (u v : β) (hpw : l.Pairwise (· < ·)) (hX : X ∈ l) (hY : Y ∈ l)
    (hXY : X < Y) (hfX : f X = some u) (hfY : f Y = some v)
    (hother : ∀ z ∈ l, z ≠ X → z ≠ Y → f z = none) :
    l.filterMap f = [u, v] := by
  induction l with
  | nil => simp at hX
  | cons hd tl ih =>
    have hpwtl := List.Pairwise.of_cons hpw
    by_cases hhdX : hd = X
    · rw [List.filterMap_cons, hhdX, hfX]
      have hYtl : Y ∈ tl := by
        rcases List.mem_cons.mp hY with h | h
        · omega
        · exact h
      have htl : tl.filterMap f = [v] := by
        refine filterMap_single tl f Y v hpwtl hYtl hfY ?_
        intro z hz hne
        have hlt : hd < z := List.rel_of_pairwise_cons hpw hz
        exact hother z (List.mem_cons_of_mem hd hz) (by omega) hne
      rw [htl]
    · have hhdY : hd ≠ Y := by
        intro hEq
        rcases List.mem_cons.mp hX with h | h
        · omega
        · have hlt : hd < X := List.rel_of_pairwise_cons hpw h
          omega
      have hhd : f hd = none := hother hd (List.mem_cons_self hd tl) hhdX hhdY
      rw [List.filterMap_cons, hhd]
      have hXtl : X ∈ tl := by
        rcases List.mem_cons.mp hX with h | h
        · exact absurd h.symm hhdX
        · exact h
      have hYtl : Y ∈ tl := by
        rcases List.mem_cons.mp hY with h | h
        · exact absurd h.symm hhdY
        · exact h
      exact ih hpwtl hXtl hYtl
        (fun z hz hne1 hne2 => hother z (List.mem_cons_of_mem hd hz) hne1 hne2)

theorem mem_range'_two (s n m : Nat) :
    m ∈ List.range' s n 2 ↔ ∃ k, k < n ∧ m = s + 2 * k := by
  rw [List.mem_range']

/-- C7 (confirmed): on a 524288-byte image holding exactly one engineered
engage/cut pair — the same rpm in [5500, 7500] as big-endian 16-bit values
at even offsets X and X+2 with X in [0x8000, 0xC000] — and no other
in-range value at any even offset, the heuristic scanner returns exactly
that offset and value; and on a buffer with no in-range value at any even
offset it signals failure with both results empty. -/
theorem scan_rev_limit_spec :
    (∀ (b : ByteArr) (X rpm : Nat),
      b.size = 524288 → X % 2 = 0 → 0x8000 ≤ X → X ≤ 0xC000 →
      5500 ≤ rpm → rpm ≤ 7500 →
      readU16 b.data X = rpm → readU16 b.data (X + 2) = rpm →
      (∀ i, i % 2 = 0 → i + 1 < b.size → i ≠ X → i ≠ X + 2 →
        ¬(5500 ≤ readU16 b.data i ∧ readU16 b.data i ≤ 7500)) →
      scan_rev_limit b = (some X, some rpm)) ∧
    (∀ b : ByteArr,
      (∀ i, i % 2 = 0 → i + 1 < b.size →
        ¬(5500 ≤ readU16 b.data i ∧ readU16 b.data i ≤ 7500)) →
      scan_rev_limit b = (none, none)) := by
  constructor
  · intro b X rpm hsize hX2 hXlo hXhi hlo hhi hrX hrX2 hnone
    rw [scan_rev_limit]
    dsimp only
    have hoffs : (b.size - 1 + 1) / 2 = 262144 := by
      rw [hsize]
    rw [hoffs]
    have hXmem : X ∈ List.range' 0 262144 2 := by
      rw [mem_range'_two]
      exact ⟨X / 2, by omega, by omega⟩
    have hX2mem : X + 2 ∈ List.range' 0 262144 2 := by
      rw [mem_range'_two]
      exact ⟨(X + 2) / 2, by omega, by omega⟩
    have hfX : (fun i => if 5500 ≤ readU16 b.data i ∧ readU16 b.data i ≤ 7500
        then some (i, readU16 b.data i) else none) X = some (X, rpm) := by
      dsimp only
      rw [hrX, if_pos ⟨hlo, hhi⟩]
    have hfX2 : (fun i => if 5500 ≤ readU16 b.data i ∧ readU16 b.data i ≤ 7500
        then some (i, readU16 b.data i) else none) (X + 2) = some (X + 2, rpm) := by
      dsimp only
      rw [hrX2, if_pos ⟨hlo, hhi⟩]
    have hfz : ∀ z ∈ List.range' 0 262144 2, z ≠ X → z ≠ X + 2 →
        (fun i => if 5500 ≤ readU16 b.data i ∧ readU16 b.data i ≤ 7500
          then some (i, readU16 b.data i) else none) z = none := by
      intro z hz hne1 hne2
      obtain ⟨k, hk, hzk⟩ := (mem_range'_two 0 262144 z).mp hz
      have hcond := hnone z (by omega) (by omega) hne1 hne2
      dsimp only
      exact if_neg hcond
    have hhits : (List.range' 0 262144 2).filterMap
        (fun i => if 5500 ≤ readU16 b.data i ∧ readU16 b.data i ≤ 7500
          then some (i, readU16 b.data i) else none) = [(X, rpm), (X + 2, rpm)] :=
      filterMap_pair _ _ X (X + 2) (X, rpm) (X + 2, rpm)
        (range'_two_pairwise 262144 0) hXmem hX2mem (by omega) hfX hfX2 hfz
    rw [hhits]
    have hlk1 : hitsLookup [(X, rpm), (X + 2, rpm)] (X + 2) = some rpm := by
      rw [hitsLookup, if_neg (by omega : ¬ X + 2 = X), hitsLookup, if_pos rfl]
    have hlk2 : hitsLookup [(X, rpm), (X + 2, rpm)] (X + 2 + 2) = none := by
      rw [hitsLookup, if_neg (by omega : ¬ X + 2 + 2 = X), hitsLookup,
        if_neg (by omega : ¬ X + 2 + 2 = X + 2), hitsLookup]
    rw [if_neg (by simp)]
    rw [List.foldl_cons, List.foldl_cons, List.foldl_nil]
    dsimp only
    rw [hlk1]
    dsimp only
    rw [if_pos rfl, if_pos (Or.inl rfl), hlk2]
  · intro b hnone
    rw [scan_rev_limit]
    dsimp only
    have hhits : (List.range' 0 ((b.size - 1 + 1) / 2) 2).filterMap
        (fun i => if 5500 ≤ readU16 b.data i ∧ readU16 b.data i ≤ 7500
          then some (i, readU16 b.data i) else none) = [] := by
      refine filterMap_none _ _ ?_
      intro z hz
      obtain ⟨k, hk, hzk⟩ := (mem_range'_two 0 _ z).mp hz
      have hz1 : z + 1 < b.size := by omega
      exact if_neg (hnone z (by omega) hz1)
    rw [hhits]
    rfl

/-- Witness for C7: a concrete image with one 6800 pair at 0x9000, and the
all-zero image. -/
theorem scan_rev_limit_spec_witness :
    scan_rev_limit scanPairBuf = (some 0x9000, some 6800) ∧
    scan_rev_limit zeroImage = (none, none) := by
  constructor
  · refine scan_rev_limit_spec.1 scanPairBuf 0x9000 6800 rfl (by decide) (by decide)
      (by decide) (by decide) (by decide) (by decide) (by decide) ?_
    intro i h2 hi hne1 hne2
    intro hcontra
    have hval : readU16 scanPairBuf.data i = 0 := by
      have hd : ∀ j, j ≠ 0x9000 → j ≠ 0x9001 → j ≠ 0x9002 → j ≠ 0x9003 →
          scanPairBuf.data j = 0 := by
        intro j hj1 hj2 hj3 hj4
        show (if j = 0x9000 then 26 else if j = 0x9001 then 144
          else if j = 0x9002 then 26 else if j = 0x9003 then 144 else 0) = 0
        rw [if_neg hj1, if_neg hj2, if_neg hj3, if_neg hj4]
      rw [readU16, hd i (by omega) (by omega) hne2 (by omega),
        hd (i + 1) (by omega) (by omega) (by omega) (by omega)]
    omega
  · refine scan_rev_limit_spec.2 zeroImage ?_
    intro i _ _
    intro hcontra
    have : readU16 zeroImage.data i = 0 := by
      simp [readU16, zeroImage, zeroBuf]
    omega

/-- C3 (confirmed): on a loaded 524288-byte image with a registry profile,
every tune operation leaves the original buffer untouched, mutates only the
working buffer and the change log (profile, filepath and scanned-rev state
are unchanged), keeps the working buffer the same length as the original
(524288), and never writes a working-buffer byte at an offset outside
[0, 524288). -/
theorem tune_ops_frame (e : Engine) (op : Op)
    (hreg : e.profile ∈ registryProfiles)
    (hbs : e.buf.size = 524288) (hos : e.orig.size = 524288)
    (hsc : ∀ sa, e.scannedRevAddr = some sa → sa + 16 ≤ 524288) :
    (applyOp op e).orig = e.orig ∧
    (applyOp op e).profile = e.profile ∧
    (applyOp op e).filepath = e.filepath ∧
    (applyOp op e).scannedRevAddr = e.scannedRevAddr ∧
    (applyOp op e).scannedRevRpm = e.scannedRevRpm ∧
    (applyOp op e).buf.size = (applyOp op e).orig.size ∧
    (applyOp op e).buf.size = 524288 ∧
    (∀ j, 524288 ≤ j → (applyOp op e).buf.data j = e.buf.data j) := by
  obtain ⟨h1, h2, h3, h4, h5, h6, h7⟩ :=
    applyOp_untouched_ge op e 524288 (registry_bounded _ hreg) hsc
  exact ⟨h1, h3, h2, h4, h5, by rw [h6, h1, hbs, hos], by rw [h6, hbs], h7⟩

/-- Witness for C3: Stage 1 on a loaded engine with the 12591333 profile. -/
theorem tune_ops_frame_witness :
    (applyOp Op.stage1 E1333).orig = E1333.orig ∧
    (applyOp Op.stage1 E1333).profile = E1333.profile ∧
    (applyOp Op.stage1 E1333).filepath = E1333.filepath ∧
    (applyOp Op.stage1 E1333).scannedRevAddr = E1333.scannedRevAddr ∧
    (applyOp Op.stage1 E1333).scannedRevRpm = E1333.scannedRevRpm ∧
    (applyOp Op.stage1 E1333).buf.size = (applyOp Op.stage1 E1333).orig.size ∧
    (applyOp Op.stage1 E1333).buf.size = 524288 ∧
    (∀ j, 524288 ≤ j → (applyOp Op.stage1 E1333).buf.data j = E1333.buf.data j) :=
  tune_ops_frame E1333 Op.stage1 (by decide) rfl rfl
    (fun _ h => Option.noConfusion h)

/-- C5 (confirmed): `load` fails with a size-mismatch error carrying the
offending length exactly when the file is not 524288 bytes, and on failure
the engine is returned untouched (no partial processing); on success both
buffers hold the file bytes, the change log is reset and the filepath is
recorded.  `compare_files` on buffers of unequal length reports an
explanatory size mismatch instead of a region report. -/
theorem load_size_check (e : Engine) (path : String) (data : ByteArr) :
    (data.size ≠ 524288 →
      load e path data = (e, Except.error (LoadErr.sizeMismatch data.size))) ∧
    ((∃ err, (load e path data).2 = Except.error err) ↔ data.size ≠ 524288) ∧
    (data.size = 524288 →
      (load e path data).1.buf = data ∧
      (load e path data).1.orig = data ∧
      (load e path data).1.changes = [] ∧
      (load e path data).1.filepath = path ∧
      ∃ info, (load e path data).2 = Except.ok info) ∧
    (∀ a b : ByteArr, a.size ≠ b.size →
      compare_files a b = CompareResult.sizeMismatch a.size b.size) := by
  refine ⟨?_, ?_, ?_, ?_⟩
  · intro h
    rw [load, if_pos h]
  · constructor
    · rintro ⟨err, herr⟩
      by_contra hsz
      have h524 : data.size = 524288 := by omega
      rw [load, if_neg (by omega)] at herr
      exact Except.noConfusion herr
    · intro h
      exact ⟨LoadErr.sizeMismatch data.size, by rw [load, if_pos h]⟩
  · intro h
    rw [load, if_neg (by omega)]
    exact ⟨rfl, rfl, rfl, rfl, _, rfl⟩
  · intro a b h
    rw [compare_files, if_pos h]

/-! ## Lemmas for the comparator -/

theorem range1_split (s m n : Nat) (h : m ≤ n) :
    List.range' s n = List.range' s m ++ List.range' (s + m) (n - m) := by
  have h1 := List.range'_append s m (n - m) 1
  rw [one_mul] at h1
  rw [h1]
  congr 1
  omega

theorem diffFold_eq_none (a b : Nat → Nat) :
    ∀ (k i : Nat) (regs : List (Nat × Nat)) (p : Nat),
      (∀ j, i ≤ j → j < i + k → a j = b j) →
      (List.range' i k).foldl (diffStep a b) (regs, none, p) = (regs, none, p) := by
  intro k
  induction k with
  | zero =>
    intro i regs p _
    rfl
  | succ k ih =>
    intro i regs p h
    rw [List.range'_succ, List.foldl_cons]
    have hstep : diffStep a b (regs, none, p) i = (regs, none, p) := by
      rw [diffStep, if_neg (not_not_intro (h i (Nat.le_refl i) (by omega)))]
    rw [hstep]
    exact ih (i + 1) regs p (fun j h1 h2 => h j (by omega) (by omega))

theorem diffFold_ne_open (a b : Nat → Nat) :
    ∀ (k i : Nat) (regs : List (Nat × Nat)) (s0 p : Nat), 1 ≤ k →
      (∀ j, i ≤ j → j < i + k → a j ≠ b j) →
      (List.range' i k).foldl (diffStep a b) (regs, some s0, p) =
        (regs, some s0, i + k - 1) := by
  intro k
  induction k with
  | zero =>
    intro i regs s0 p hk _
    exact absurd hk (by decide)
  | succ k ih =>
    intro i regs s0 p _ h
    rw [List.range'_succ, List.foldl_cons]
    have hstep : diffStep a b (regs, some s0, p) i = (regs, some s0, i) := by
      rw [diffStep, if_pos (h i (Nat.le_refl i) (by omega))]
    rw [hstep, show i + (k + 1) - 1 = i + 1 + k - 1 by omega]
    by_cases hk : 1 ≤ k
    · exact ih (i + 1) regs s0 i hk (fun j h1 h2 => h j (by omega) (by omega))
    · have hk0 : k = 0 := by omega
      subst hk0
      simp only [List.range', List.foldl_nil]
      rw [show i + 1 + 0 - 1 = i by omega]

theorem diffFold_ne_closed (a b : Nat → Nat) (k i : Nat)
    (regs : List (Nat × Nat)) (p : Nat) (hk : 1 ≤ k)
    (h : ∀ j, i ≤ j → j < i + k → a j ≠ b j) :
    (List.range' i k).foldl (diffStep a b) (regs, none, p) =
      (regs, some i, i + k - 1) := by
  obtain ⟨k', rfl⟩ : ∃ k', k = k' + 1 := ⟨k - 1, by omega⟩
  rw [List.range'_succ, List.foldl_cons]
  have hstep : diffStep a b (regs, none, p) i = (regs, some i, i) := by
    rw [diffStep, if_pos (h i (Nat.le_refl i) (by omega))]
  rw [hstep, show i + (k' + 1) - 1 = i + 1 + k' - 1 by omega]
  by_cases hk' : 1 ≤ k'
  · exact diffFold_ne_open a b k' (i + 1) regs i i hk'
      (fun j h1 h2 => h j (by omega) (by omega))
  · have hk0 : k' = 0 := by omega
    subst hk0
    simp only [List.range', List.foldl_nil]
    rw [show i + 1 + 0 - 1 = i by omega]

theorem diffFold_eq_open (a b : Nat → Nat) (k i : Nat)
    (regs : List (Nat × Nat)) (s0 p : Nat) (hk : 1 ≤ k)
    (h : ∀ j, i ≤ j → j < i + k → a j = b j) :
    (List.range' i k).foldl (diffStep a b) (regs, some s0, p) =
      (regs ++ [(s0, p)], none, p) := by
  obtain ⟨k', rfl⟩ : ∃ k', k = k' + 1 := ⟨k - 1, by omega⟩
  rw [List.range'_succ, List.foldl_cons]
  have hstep : diffStep a b (regs, some s0, p) i = (regs ++ [(s0, p)], none, p) := by
    rw [diffStep, if_neg (not_not_intro (h i (Nat.le_refl i) (by omega)))]
  rw [hstep]
  exact diffFold_eq_none a b k' (i + 1) _ p (fun j h1 h2 => h j (by omega) (by omega))

theorem rawRegions_nil (a b : Nat → Nat) (n : Nat)
    (h : ∀ i, i < n → a i = b i) : rawRegions a b n = [] := by
  rw [rawRegions, List.range_eq_range']
  rw [diffFold_eq_none a b n 0 [] 0 (fun j _ h2 => h j (by omega))]

theorem rawRegions_two (a b : Nat → Nat) (n X g : Nat)
    (hg : 2 ≤ g) (hn : X + g < n)
    (hd : ∀ i, i < n → ((a i ≠ b i) ↔ (i = X ∨ i = X + g))) :
    rawRegions a b n = [(X, X), (X + g, X + g)] := by
  rw [rawRegions, List.range_eq_range']
  rw [range1_split 0 X n (by omega), List.foldl_append]
  rw [diffFold_eq_none a b X 0 [] 0 (fun j _ h2 => by
    have := hd j (by omega)
    by_contra hne
    rcases this.mp hne with h | h <;> omega)]
  rw [Nat.zero_add, range1_split X 1 (n - X) (by omega), List.foldl_append]
  rw [diffFold_ne_closed a b 1 X [] 0 (le_refl 1) (fun j h1 h2 => by
    have hj : j = X := by omega
    exact (hd j (by omega)).mpr (Or.inl hj))]
  rw [show X + 1 - 1 = X by omega]
  rw [range1_split (X + 1) (g - 1) (n - X - 1) (by omega), List.foldl_append]
  rw [diffFold_eq_open a b (g - 1) (X + 1) [] X X (by omega) (fun j h1 h2 => by
    have := hd j (by omega)
    by_contra hne
    rcases this.mp hne with h | h <;> omega)]
  rw [List.nil_append]
  rw [show X + 1 + (g - 1) = X + g by omega,
    range1_split (X + g) 1 (n - X - 1 - (g - 1)) (by omega), List.foldl_append]
  rw [diffFold_ne_closed a b 1 (X + g) [(X, X)] X (le_refl 1) (fun j h1 h2 => by
    have hj : j = X + g := by omega
    exact (hd j (by omega)).mpr (Or.inr hj))]
  rw [show X + g + 1 - 1 = X + g by omega]
  by_cases hrest : 1 ≤ n - X - 1 - (g - 1) - 1
  · rw [diffFold_eq_open a b (n - X - 1 - (g - 1) - 1) (X + g + 1) [(X, X)]
      (X + g) (X + g) hrest (fun j h1 h2 => by
        have := hd j (by omega)
        by_contra hne
        rcases this.mp hne with h | h <;> omega)]
    rfl
  · rw [show n - X - 1 - (g - 1) - 1 = 0 by omega]
    rfl

theorem rawRegions_run (a b : Nat → Nat) (n X m : Nat)
    (hm : 1 ≤ m) (hn : X + m ≤ n)
    (hd : ∀ i, i < n → ((a i ≠ b i) ↔ (X ≤ i ∧ i < X + m))) :
    rawRegions a b n = [(X, X + m - 1)] := by
  rw [rawRegions, List.range_eq_range']
  rw [range1_split 0 X n (by omega), List.foldl_append]
  rw [diffFold_eq_none a b X 0 [] 0 (fun j _ h2 => by
    have := hd j (by omega)
    by_contra hne
    have := this.mp hne
    omega)]
  rw [Nat.zero_add, range1_split X m (n - X) (by omega), List.foldl_append]
  rw [diffFold_ne_closed a b m X [] 0 hm (fun j h1 h2 => by
    exact (hd j (by omega)).mpr ⟨h1, by omega⟩)]
  by_cases hrest : 1 ≤ n - X - m
  · rw [diffFold_eq_open a b (n - X - m) (X + m) [] X (X + m - 1) hrest
      (fun j h1 h2 => by
        have := hd j (by omega)
        by_contra hne
        have := this.mp hne
        omega)]
    rfl
  · rw [show n - X - m = 0 by omega]
    rfl

theorem mergeRegions_single (r : Nat × Nat) : mergeRegions [r] = [r] := rfl

theorem mergeRegions_pair (X g : Nat) :
    mergeRegions [(X, X), (X + g, X + g)] =
      if g ≤ 8 then [(X, X + g)] else [(X, X), (X + g, X + g)] := by
  rw [mergeRegions, mergeAux]
  dsimp only
  rw [show X + g - X = g by omega]
  by_cases hg : g ≤ 8
  · rw [if_pos hg, if_pos hg]
    rfl
  · rw [if_neg hg, if_neg hg]
    rfl


/-- C8 (confirmed): differences at exactly X and X+8 (gap 8) merge into one
region, at X and X+9 (gap 9) they stay two regions, and comparing a buffer
with itself reports zero changed bytes and zero regions. -/
theorem compare_merge_rule :
    (∀ (a b : ByteArr) (X : Nat), a.size = b.size → X + 8 < a.size →
      (∀ i, i < a.size → (a.data i ≠ b.data i ↔ (i = X ∨ i = X + 8))) →
      compareRegionCount (compare_files a b) = 1) ∧
    (∀ (a b : ByteArr) (X : Nat), a.size = b.size → X + 9 < a.size →
      (∀ i, i < a.size → (a.data i ≠ b.data i ↔ (i = X ∨ i = X + 9))) →
      compareRegionCount (compare_files a b) = 2) ∧
    (∀ a : ByteArr,
      compareTotal (compare_files a a) = 0 ∧
      compareRegionCount (compare_files a a) = 0) := by
  refine ⟨?_, ?_, ?_⟩
  · intro a b X hsz hX hd
    rw [compare_files, if_neg (not_not_intro hsz)]
    dsimp only [compareRegionCount]
    rw [rawRegions_two a.data b.data a.size X 8 (by omega) hX hd,
      mergeRegions_pair, if_pos (by omega)]
    rfl
  · intro a b X hsz hX hd
    rw [compare_files, if_neg (not_not_intro hsz)]
    dsimp only [compareRegionCount]
    rw [rawRegions_two a.data b.data a.size X 9 (by omega) hX hd,
      mergeRegions_pair, if_neg (by omega)]
    rfl
  · intro a
    rw [compare_files, if_neg (not_not_intro rfl)]
    dsimp only [compareTotal, compareRegionCount]
    rw [rawRegions_nil a.data a.data a.size (fun _ _ => rfl)]
    exact ⟨rfl, rfl⟩

/-- Witness for C8 on concrete 20-byte buffers (diffs at 2 and 10, then at
2 and 11) and a 12-byte buffer compared with itself. -/
theorem compare_merge_rule_witness :
    compareRegionCount (compare_files gap8Buf zero20) = 1 ∧
    compareRegionCount (compare_files gap9Buf zero20) = 2 ∧
    compareTotal (compare_files zero12 zero12) = 0 ∧
    compareRegionCount (compare_files zero12 zero12) = 0 := by
  refine ⟨?_, ?_, ?_, ?_⟩
  · exact compare_merge_rule.1 gap8Buf zero20 2 rfl (by decide) (by decide)
  · exact compare_merge_rule.2.1 gap9Buf zero20 2 rfl (by decide) (by decide)
  · exact (compare_merge_rule.2.2 zero12).1
  · exact (compare_merge_rule.2.2 zero12).2

/-- C9 counterexample: buffers of size 9 differing at offsets 0 and 8 merge
into one region [0, 8], so the reported "total changed bytes" is 9 while
only 2 offsets actually differ. -/
theorem compare_total_counterexample :
    compareTotal (compare_files edge9Buf zero9) ≠ diffCount edge9Buf zero9 ∧
    compareTotal (compare_files edge9Buf zero9) = 9 ∧
    diffCount edge9Buf zero9 = 2 := by
  decide

/-- C9 (amended): the "total changed bytes" figure is the summed size of the
merged regions; it equals the number of differing offsets whenever the
differing offsets form one contiguous run (no gap merging), but gap-merging
can absorb equal bytes, making the figure exceed the differing count. -/
theorem compare_total_contiguous (a b : ByteArr) (X m : Nat)
    (hsz : a.size = b.size) (hm : 1 ≤ m) (hn : X + m ≤ a.size)
    (hd : ∀ i, i < a.size → (a.data i ≠ b.data i ↔ (X ≤ i ∧ i < X + m))) :
    compareTotal (compare_files a b) = diffCount a b ∧ diffCount a b = m := by
  have hdc : diffCount a b = m := by
    rw [diffCount, List.range_eq_range']
    rw [range1_split 0 X a.size (by omega), List.filter_append, Nat.zero_add]
    rw [range1_split X m (a.size - X) (by omega), List.filter_append]
    have h1 : (List.range' 0 X).filter (fun i => a.data i != b.data i) = [] := by
      rw [List.filter_eq_nil_iff]
      intro z hz
      have hzlt := List.mem_range'_1.mp hz
      have heq : a.data z = b.data z := by
        by_contra hne
        have := (hd z (by omega)).mp hne
        omega
      simp [heq]
    have h2 : (List.range' X m).filter (fun i => a.data i != b.data i) =
        List.range' X m := by
      rw [List.filter_eq_self]
      intro z hz
      have hzlt := List.mem_range'_1.mp hz
      have hne : a.data z ≠ b.data z := (hd z (by omega)).mpr (by omega)
      simp [hne]
    have h3 : (List.range' (X + m) (a.size - X - m)).filter
        (fun i => a.data i != b.data i) = [] := by
      rw [List.filter_eq_nil_iff]
      intro z hz
      have hzlt := List.mem_range'_1.mp hz
      have heq : a.data z = b.data z := by
        by_contra hne
        have := (hd z (by omega)).mp hne
        omega
      simp [heq]
    rw [h1, h2, h3]
    simp [List.length_range']
  refine ⟨?_, hdc⟩
  rw [hdc]
  rw [compare_files, if_neg (not_not_intro hsz)]
  dsimp only [compareTotal]
  rw [rawRegions_run a.data b.data a.size X m hm hn hd, mergeRegions_single]
  simp only [List.map_cons, List.map_nil, List.sum_cons, List.sum_nil]
  omega

/-- Witness for C9 (amended) on 12-byte buffers differing exactly on the
run [3, 7). -/
theorem compare_total_contiguous_witness :
    compareTotal (compare_files runBuf zero12) = diffCount runBuf zero12 ∧
    diffCount runBuf zero12 = 4 :=
  compare_total_contiguous runBuf zero12 3 4 rfl (by decide) (by decide) (by decide)

/-! ## Lemmas for the rev-limit writes -/

theorem foldWrite_changes (v : Nat) (lbl : String) (hl : lbl ≠ "") :
    ∀ (l : List Nat) (e : Engine),
      (l.foldl (fun acc a => write_u16be acc a v lbl) e).changes =
        e.changes ++ l.map (fun _ => LogEntry.write16 lbl v) := by
  intro l
  induction l with
  | nil =>
    intro e
    simp
  | cons hd tl ih =>
    intro e
    rw [List.foldl_cons, ih]
    show (write_u16be e hd v lbl).changes ++ _ = _
    rw [write_u16be]
    dsimp only
    rw [if_pos hl, List.map_cons, List.append_assoc]
    rfl

theorem foldWrite_data_notin (v : Nat) (lbl : String) (j : Nat) :
    ∀ (l : List Nat) (e : Engine), (∀ a ∈ l, j ≠ a ∧ j ≠ a + 1) →
      (l.foldl (fun acc a => write_u16be acc a v lbl) e).buf.data j = e.buf.data j := by
  intro l
  induction l with
  | nil =>
    intro e _
    rfl
  | cons hd tl ih =>
    intro e h
    rw [List.foldl_cons]
    rw [ih (write_u16be e hd v lbl)
      (fun a ha => h a (List.mem_cons_of_mem hd ha))]
    show upd (upd e.buf.data hd (v / 256 % 256)) (hd + 1) (v % 256) j = e.buf.data j
    have hne := h hd (List.mem_cons_self hd tl)
    rw [upd_ne _ _ _ _ hne.2, upd_ne _ _ _ _ hne.1]

theorem foldWrite_data_mem (v : Nat) (lbl : String) :
    ∀ (l : List Nat) (e : Engine) (a : Nat), a ∈ l →
      (∀ b ∈ l, b ≠ a → (a + 2 ≤ b ∨ b + 2 ≤ a)) →
      (l.foldl (fun acc x => write_u16be acc x v lbl) e).buf.data a = v / 256 % 256 ∧
      (l.foldl (fun acc x => write_u16be acc x v lbl) e).buf.data (a + 1) = v % 256 := by
  intro l
  induction l with
  | nil =>
    intro e a ha
    simp at ha
  | cons hd tl ih =>
    intro e a ha hsep
    rw [List.foldl_cons]
    by_cases hmem : a ∈ tl
    · exact ih (write_u16be e hd v lbl) a hmem
        (fun b hb hne => hsep b (List.mem_cons_of_mem hd hb) hne)
    · have hahd : a = hd := by
        rcases List.mem_cons.mp ha with h | h
        · exact h
        · exact absurd h hmem
      have hnotin : ∀ b ∈ tl, a ≠ b ∧ a ≠ b + 1 := by
        intro b hb
        have hbne : b ≠ a := fun hEq => hmem (hEq ▸ hb)
        have := hsep b (List.mem_cons_of_mem hd hb) hbne
        omega
      have hnotin1 : ∀ b ∈ tl, a + 1 ≠ b ∧ a + 1 ≠ b + 1 := by
        intro b hb
        have hbne : b ≠ a := fun hEq => hmem (hEq ▸ hb)
        have := hsep b (List.mem_cons_of_mem hd hb) hbne
        omega
      constructor
      · rw [foldWrite_data_notin v lbl a tl (write_u16be e hd v lbl) hnotin]
        show upd (upd e.buf.data hd (v / 256 % 256)) (hd + 1) (v % 256) a = _
        rw [hahd, upd_ne _ _ _ _ (by omega), upd_same]
      · rw [foldWrite_data_notin v lbl (a + 1) tl (write_u16be e hd v lbl) hnotin1]
        show upd (upd e.buf.data hd (v / 256 % 256)) (hd + 1) (v % 256) (a + 1) = _
        rw [hahd, upd_same]

/-- The write branch of `apply_rev_limit`, characterised: when the engage
addresses resolve, the target differs from the resolved original, and the
resolved addresses are pairwise non-overlapping, every engage address
receives `rpm` and every hysteresis address receives `rpm - 6` (as
big-endian byte pairs), with one header plus one log entry per write. -/
theorem apply_rev_limit_writes (e : Engine) (rpm : Nat)
    (h1 : ¬(revEngageAddrs e).isEmpty) (h2 : rpm ≠ revResolvedOrig e)
    (hsepE : ∀ x ∈ revEngageAddrs e, ∀ y ∈ revEngageAddrs e, x ≠ y →
      x + 2 ≤ y ∨ y + 2 ≤ x)
    (hsepH : ∀ x ∈ revHysterAddrs e, ∀ y ∈ revHysterAddrs e, x ≠ y →
      x + 2 ≤ y ∨ y + 2 ≤ x)
    (hsepEH : ∀ x ∈ revEngageAddrs e, ∀ y ∈ revHysterAddrs e,
      x + 2 ≤ y ∨ y + 2 ≤ x) :
    (∀ a ∈ revEngageAddrs e,
      (apply_rev_limit rpm e).buf.data a = rpm / 256 % 256 ∧
      (apply_rev_limit rpm e).buf.data (a + 1) = rpm % 256) ∧
    (∀ a ∈ revHysterAddrs e,
      (apply_rev_limit rpm e).buf.data a = (rpm - 6) / 256 % 256 ∧
      (apply_rev_limit rpm e).buf.data (a + 1) = (rpm - 6) % 256) ∧
    (apply_rev_limit rpm e).changes = e.changes ++
      [LogEntry.revLimitHeader (revResolvedOrig e) rpm] ++
      (revEngageAddrs e).map (fun _ => LogEntry.write16 "Fuel cut engage" rpm) ++
      (revHysterAddrs e).map (fun _ => LogEntry.write16 "Fuel cut hyster" (rpm - 6)) := by
  rw [apply_rev_limit]
  dsimp only
  rw [if_neg h1, if_neg h2]
  by_cases h3 : (revHysterAddrs e).isEmpty
  · rw [if_pos h3]
    have hhnil : revHysterAddrs e = [] := List.isEmpty_iff.mp h3
    refine ⟨?_, ?_, ?_⟩
    · intro a ha
      exact foldWrite_data_mem rpm "Fuel cut engage" (revEngageAddrs e) _ a ha
        (fun b hb hne => hsepE a ha b hb (fun hEq => hne hEq.symm))
    · intro a ha
      rw [hhnil] at ha
      simp at ha
    · rw [foldWrite_changes rpm "Fuel cut engage" (by decide) (revEngageAddrs e) _]
      rw [hhnil]
      simp
  · rw [if_neg h3]
    refine ⟨?_, ?_, ?_⟩
    · intro a ha
      have hbase := foldWrite_data_mem rpm "Fuel cut engage" (revEngageAddrs e)
        { e with changes := e.changes ++ [LogEntry.revLimitHeader (revResolvedOrig e) rpm] }
        a ha (fun b hb hne => hsepE a ha b hb (fun hEq => hne hEq.symm))
      constructor
      · rw [foldWrite_data_notin (rpm - 6) "Fuel cut hyster" a (revHysterAddrs e) _
          (fun b hb => by have := hsepEH a ha b hb; omega)]
        exact hbase.1
      · rw [foldWrite_data_notin (rpm - 6) "Fuel cut hyster" (a + 1) (revHysterAddrs e) _
          (fun b hb => by have := hsepEH a ha b hb; omega)]
        exact hbase.2
    · intro a ha
      refine foldWrite_data_mem (rpm - 6) "Fuel cut hyster" (revHysterAddrs e) _ a ha
        (fun b hb hne => hsepH a ha b hb (fun hEq => hne hEq.symm))
    · rw [foldWrite_changes (rpm - 6) "Fuel cut hyster" (by decide) (revHysterAddrs e) _]
      rw [foldWrite_changes rpm "Fuel cut engage" (by decide) (revEngageAddrs e) _]

theorem revEngageAddrs_1333 (e : Engine) (hprof : e.profile = profile12591333) :
    revEngageAddrs e = [0xB568, 0xB56A] := by
  rw [revEngageAddrs, hprof]
  rfl

theorem revHysterAddrs_1333 (e : Engine) (hprof : e.profile = profile12591333) :
    revHysterAddrs e = [0xB570, 0xB572, 0xB574, 0xB576] := by
  rw [revHysterAddrs, hprof]
  rfl

theorem revResolvedOrig_1333 (e : Engine) (hprof : e.profile = profile12591333)
    (horig : readU16 e.orig.data 0xB568 = 6500) :
    revResolvedOrig e = 6500 := by
  rw [revResolvedOrig, revEngageAddrs_1333 e hprof]
  dsimp only [List.headD]
  rw [horig, if_pos (by omega)]

/-- On an image whose part field resolves to 12591333 and whose stored rev
value is plausible, detection resolves that profile and leaves every other
engine field (including the scanned-rev state) unchanged. -/
theorem detect_profile1333 (e : Engine)
    (hpart : rawPart e.orig = "12591333")
    (hplaus : 1000 ≤ readU16 e.orig.data 0xB568 ∧ readU16 e.orig.data 0xB568 ≤ 9000) :
    (detect e).1 = { e with profile := profile12591333 } := by
  rw [detect]
  dsimp only
  rw [hpart]
  have hpg : profilesGet "12591333" = profile12591333 := by decide
  rw [hpg]
  simp only [profile12591333]
  rw [if_neg (by
    intro hor
    rcases hor with h | h
    · simp at h
    · exact h ⟨hplaus.1, hplaus.2⟩)]

/-- Stage 2 on an engine with the 12591333 profile, no scanned-rev state
and a plausible stored rev value: the rev-limit write lands 6800 at both
engage addresses and 6794 at all four hysteresis addresses. -/
theorem stage2_rev_values (e : Engine)
    (hprof : e.profile = profile12591333)
    (hscan : e.scannedRevAddr = none)
    (horig : readU16 e.orig.data 0xB568 = 6500) :
    readU16 (apply_stage2 e).buf.data 0xB568 = 6800 ∧
    readU16 (apply_stage2 e).buf.data 0xB56A = 6800 ∧
    readU16 (apply_stage2 e).buf.data 0xB570 = 6794 ∧
    readU16 (apply_stage2 e).buf.data 0xB572 = 6794 ∧
    readU16 (apply_stage2 e).buf.data 0xB574 = 6794 ∧
    readU16 (apply_stage2 e).buf.data 0xB576 = 6794 := by
  rw [apply_stage2]
  have hchain : Untouched (fun _ => False)
      (note (note (note e "Stage 2 [aggressive + 6800 RPM]")
        "Ign: +5 WOT / +3 PL | Fuel: +4 WOT / +2 PL")
        "Lambda: -11 WOT / -5 PL | Rev limit: 6800 RPM")
      (lambdaZones (-11) (-5) (trims 2 (fuelZones 4 2 0 (ignZones 5 3 0
        (note (note (note e "Stage 2 [aggressive + 6800 RPM]")
          "Ign: +5 WOT / +3 PL | Fuel: +4 WOT / +2 PL")
          "Lambda: -11 WOT / -5 PL | Rev limit: 6800 RPM"))))) :=
    deltaChain_untouched (fun _ => False) 5 3 0 4 2 0 2 (-11) (-5) _
      (fun _ _ _ hj => False.elim hj) (fun _ _ _ hj => False.elim hj)
      (fun _ _ _ hj => False.elim hj) (fun _ _ _ hj => False.elim hj)
  set M := lambdaZones (-11) (-5) (trims 2 (fuelZones 4 2 0 (ignZones 5 3 0
    (note (note (note e "Stage 2 [aggressive + 6800 RPM]")
      "Ign: +5 WOT / +3 PL | Fuel: +4 WOT / +2 PL")
      "Lambda: -11 WOT / -5 PL | Rev limit: 6800 RPM")))) with hMdef
  have hMprof : M.profile = profile12591333 := (untouched_profile hchain).trans hprof
  have hMscan : M.scannedRevAddr = none := (untouched_scannedAddr hchain).trans hscan
  have hMorig : M.orig = e.orig := hchain.1
  have hEng : revEngageAddrs M = [0xB568, 0xB56A] := revEngageAddrs_1333 M hMprof
  have hHys : revHysterAddrs M = [0xB570, 0xB572, 0xB574, 0xB576] :=
    revHysterAddrs_1333 M hMprof
  have hRes : revResolvedOrig M = 6500 :=
    revResolvedOrig_1333 M hMprof (by rw [hMorig]; exact horig)
  have hW := apply_rev_limit_writes M 6800
    (by rw [hEng]; decide)
    (by rw [hRes]; decide)
    (by
      intro x hx y hy hne
      rw [hEng] at hx hy
      simp only [List.mem_cons, List.not_mem_nil, or_false] at hx hy
      rcases hx with rfl | rfl <;> rcases hy with rfl | rfl <;> omega)
    (by
      intro x hx y hy hne
      rw [hHys] at hx hy
      simp only [List.mem_cons, List.not_mem_nil, or_false] at hx hy
      rcases hx with rfl | rfl | rfl | rfl <;> rcases hy with rfl | rfl | rfl | rfl <;> omega)
    (by
      intro x hx y hy
      rw [hEng] at hx
      rw [hHys] at hy
      simp only [List.mem_cons, List.not_mem_nil, or_false] at hx hy
      rcases hx with rfl | rfl <;> rcases hy with rfl | rfl | rfl | rfl <;> omega)
  have hE1 := hW.1 0xB568 (by rw [hEng]; decide)
  have hE2 := hW.1 0xB56A (by rw [hEng]; decide)
  have hH1 := hW.2.1 0xB570 (by rw [hHys]; decide)
  have hH2 := hW.2.1 0xB572 (by rw [hHys]; decide)
  have hH3 := hW.2.1 0xB574 (by rw [hHys]; decide)
  have hH4 := hW.2.1 0xB576 (by rw [hHys]; decide)
  refine ⟨?_, ?_, ?_, ?_, ?_, ?_⟩
  · rw [readU16, hE1.1, hE1.2]
  · rw [readU16, hE2.1, hE2.2]
  · rw [readU16, hH1.1, hH1.2]
  · rw [readU16, hH2.1, hH2.2]
  · rw [readU16, hH3.1, hH3.2]
  · rw [readU16, hH4.1, hH4.2]

/-- C6 counterexample: when the stored engage value is implausible (500,
outside [1000, 9000]) the code compares against the substituted fallback,
not the stored value.  Requesting 6500 (the fallback, while the stored value
is 500) is silently a no-op — no write, no log — although the claim as
stated requires a write of 6500; and requesting 500 (equal to the stored
value) performs writes although the claim requires a no-op. -/
theorem rev_limit_claim_counterexample :
    (apply_rev_limit 6500 E500).changes = [] ∧
    readU16 (apply_rev_limit 6500 E500).buf.data 0xB568 = 500 ∧
    readU16 E500.orig.data 0xB568 = 500 ∧
    (apply_rev_limit 500 E500).changes ≠ [] := by
  decide

/-- C6 (amended): `apply_rev_limit` skips with a log notice when neither
profile nor prior scan yields an engage address; it is a no-op with no log
entry when the target equals the RESOLVED original value (the stored engage
value when plausible, else the scanned/stock fallback); otherwise it writes
the target big-endian 16-bit to every engage address and target minus 6 to
every hysteresis address, logging each write.  End-to-end, loading a
524288-byte image whose part field reads "12591333" with stock value 6500
stored and applying Stage 2 leaves 6800 at the engage addresses and 6794 at
the hysteresis addresses. -/
theorem apply_rev_limit_spec :
    (∀ (e : Engine) (rpm : Nat),
      (e.profile.rpm_engage.getD []).isEmpty → e.scannedRevAddr = none →
        (apply_rev_limit rpm e).buf = e.buf ∧
        (apply_rev_limit rpm e).orig = e.orig ∧
        (apply_rev_limit rpm e).changes = e.changes ++
          [LogEntry.note "Rev Limit SKIPPED - address unknown for this ECU variant"]) ∧
    (∀ (e : Engine) (rpm : Nat), ¬(revEngageAddrs e).isEmpty →
      rpm = revResolvedOrig e → apply_rev_limit rpm e = e) ∧
    (∀ (e : Engine) (rpm : Nat), ¬(revEngageAddrs e).isEmpty →
      rpm ≠ revResolvedOrig e → rpm < 65536 → 6 ≤ rpm →
      (∀ x ∈ revEngageAddrs e, ∀ y ∈ revEngageAddrs e, x ≠ y →
        x + 2 ≤ y ∨ y + 2 ≤ x) →
      (∀ x ∈ revHysterAddrs e, ∀ y ∈ revHysterAddrs e, x ≠ y →
        x + 2 ≤ y ∨ y + 2 ≤ x) →
      (∀ x ∈ revEngageAddrs e, ∀ y ∈ revHysterAddrs e,
        x + 2 ≤ y ∨ y + 2 ≤ x) →
      (∀ a ∈ revEngageAddrs e, readU16 (apply_rev_limit rpm e).buf.data a = rpm) ∧
      (∀ a ∈ revHysterAddrs e,
        readU16 (apply_rev_limit rpm e).buf.data a = rpm - 6) ∧
      (apply_rev_limit rpm e).changes = e.changes ++
        [LogEntry.revLimitHeader (revResolvedOrig e) rpm] ++
        (revEngageAddrs e).map (fun _ => LogEntry.write16 "Fuel cut engage" rpm) ++
        (revHysterAddrs e).map
          (fun _ => LogEntry.write16 "Fuel cut hyster" (rpm - 6))) ∧
    (∀ (e0 : Engine) (path : String) (d : ByteArr),
      d.size = 524288 → rawPart d = "12591333" → readU16 d.data 0xB568 = 6500 →
      readU16 (apply_stage2 (load e0 path d).1).buf.data 0xB568 = 6800 ∧
      readU16 (apply_stage2 (load e0 path d).1).buf.data 0xB56A = 6800 ∧
      readU16 (apply_stage2 (load e0 path d).1).buf.data 0xB570 = 6794 ∧
      readU16 (apply_stage2 (load e0 path d).1).buf.data 0xB572 = 6794 ∧
      readU16 (apply_stage2 (load e0 path d).1).buf.data 0xB574 = 6794 ∧
      readU16 (apply_stage2 (load e0 path d).1).buf.data 0xB576 = 6794) := by
  refine ⟨?_, ?_, ?_, ?_⟩
  · intro e rpm hpe hscan
    have hE : revEngageAddrs e = e.profile.rpm_engage.getD [] := by
      rw [revEngageAddrs]
      rw [if_pos hpe, hscan]
    have hEmpty : (revEngageAddrs e).isEmpty := by
      rw [hE]
      exact hpe
    rw [apply_rev_limit]
    dsimp only
    rw [if_pos hEmpty]
    exact ⟨rfl, rfl, rfl⟩
  · intro e rpm h1 h2
    rw [apply_rev_limit]
    dsimp only
    rw [if_neg h1, if_pos h2]
  · intro e rpm h1 h2 hlt h6 hsE hsH hsEH
    have hW := apply_rev_limit_writes e rpm h1 h2 hsE hsH hsEH
    refine ⟨?_, ?_, hW.2.2⟩
    · intro a ha
      have hv := hW.1 a ha
      rw [readU16, hv.1, hv.2]
      omega
    · intro a ha
      have hv := hW.2.1 a ha
      rw [readU16, hv.1, hv.2]
      omega
  · intro e0 path d hsize hpart hrev
    have h6500 : readU16
        ({ e0 with
            buf := d, orig := d, filepath := path, changes := [],
            scannedRevAddr := none,
            scannedRevRpm := none } : Engine).orig.data 0xB568 = 6500 := hrev
    have hload : (load e0 path d).1 =
        { e0 with
            buf := d, orig := d, filepath := path, changes := [],
            scannedRevAddr := none, scannedRevRpm := none,
            profile := profile12591333 } := by
      rw [load, if_neg (by omega)]
      dsimp only
      exact detect_profile1333 _ hpart ⟨by omega, by omega⟩
    have hprof : (load e0 path d).1.profile = profile12591333 := by
      rw [hload]
    have hscan2 : (load e0 path d).1.scannedRevAddr = none := by
      rw [hload]
    have horig2 : readU16 (load e0 path d).1.orig.data 0xB568 = 6500 := by
      rw [hload]
      exact hrev
    exact stage2_rev_values _ hprof hscan2 horig2

/-- Witness for C6 (amended): the skip, no-op, write, and end-to-end parts
exercised on concrete engines and the concrete image `D1333`. -/
theorem apply_rev_limit_spec_witness :
    ((apply_rev_limit 5 E0).buf = E0.buf ∧
     (apply_rev_limit 5 E0).orig = E0.orig ∧
     (apply_rev_limit 5 E0).changes = E0.changes ++
       [LogEntry.note "Rev Limit SKIPPED - address unknown for this ECU variant"]) ∧
    apply_rev_limit 6500 E1333 = E1333 ∧
    (∀ a ∈ revEngageAddrs E1333,
      readU16 (apply_rev_limit 6800 E1333).buf.data a = 6800) ∧
    readU16 (apply_stage2 (load E0 "astra.bin" D1333).1).buf.data 0xB568 = 6800 ∧
    readU16 (apply_stage2 (load E0 "astra.bin" D1333).1).buf.data 0xB570 = 6794 := by
  refine ⟨?_, ?_, ?_, ?_, ?_⟩
  · exact apply_rev_limit_spec.1 E0 5 (by decide) rfl
  · exact apply_rev_limit_spec.2.1 E1333 6500 (by decide) (by decide)
  · exact (apply_rev_limit_spec.2.2.1 E1333 6800 (by decide) (by decide)
      (by decide) (by decide) (by decide) (by decide) (by decide)).1
  · exact (apply_rev_limit_spec.2.2.2 E0 "astra.bin" D1333 rfl (by decide)
      (by decide)).1
  · exact (apply_rev_limit_spec.2.2.2 E0 "astra.bin" D1333 rfl (by decide)
      (by decide)).2.2.1

/-- Witness for C5: a 3-byte file is rejected with the engine untouched, a
524288-byte file loads with both buffers holding the data and an empty log,
and comparing buffers of sizes 3 and 524288 reports the mismatch. -/
theorem load_size_check_witness :
    load E0 "p" D3 = (E0, Except.error (LoadErr.sizeMismatch D3.size)) ∧
    ((load E0 "q" zeroImage).1.buf = zeroImage ∧
      (load E0 "q" zeroImage).1.orig = zeroImage ∧
      (load E0 "q" zeroImage).1.changes = [] ∧
      (load E0 "q" zeroImage).1.filepath = "q" ∧
      ∃ info, (load E0 "q" zeroImage).2 = Except.ok info) ∧
    compare_files D3 zeroImage = CompareResult.sizeMismatch D3.size zeroImage.size := by
  refine ⟨?_, ?_, ?_⟩
  · exact (load_size_check E0 "p" D3).1 (by decide)
  · exact (load_size_check E0 "q" zeroImage).2.2.1 rfl
  · exact (load_size_check E0 "p" D3).2.2.2 D3 zeroImage (by decide)

end Z22SE
